import Mathlib

/-!
Verification development for the persistent storage layer in `src/txdb.cpp`
(coin-set store, chain metadata store, index scans, block-index loader).

The C++ code is shallowly embedded: byte strings are `List Nat` (each element
a byte value), 256-bit hashes and 160-bit address hashes are `Nat` payloads
with explicit range bounds, the LevelDB wrapper is an association list from
byte keys to values, and each store operation is a pure Lean function mirroring
the corresponding C++ function line by line.  Serializers for the composite
index keys live in headers that are not part of this repository snapshot;
those are modelled from the spec (fixed field order, fixed widths, big-endian
heights/timestamps) and are marked as such in their doc comments.
-/

/-! ## Byte-level serialization primitives -/

/-- Little-endian fixed-width serialization of a natural number: `w` bytes,
least significant first (the layout used for hashes and integer fields). -/
def serLE (w n : Nat) : List Nat :=
  (List.range w).map fun i => n / 256 ^ i % 256

/-- Little-endian deserialization, inverse of `serLE` on in-range inputs. -/
def deserLE (bs : List Nat) : Nat :=
  bs.foldr (fun b acc => b + 256 * acc) 0

/-- Big-endian fixed-width serialization (used for heights and timestamps in
index keys so that lexicographic byte order matches numeric order). -/
def serBE (w n : Nat) : List Nat := (serLE w n).reverse

/-- Big-endian deserialization, inverse of `serBE` on in-range inputs. -/
def deserBE (bs : List Nat) : Nat := deserLE bs.reverse

theorem serLE_length (w n : Nat) : (serLE w n).length = w := by
  simp [serLE]

theorem serBE_length (w n : Nat) : (serBE w n).length = w := by
  simp [serBE, serLE]

theorem serLE_succ (w n : Nat) : serLE (w + 1) n = n % 256 :: serLE w (n / 256) := by
  simp only [serLE, List.range_succ_eq_map, List.map_cons, List.map_map, pow_zero,
    Nat.div_one]
  congr 1
  refine List.map_congr_left fun i _ => ?_
  simp only [Function.comp]
  rw [pow_succ, mul_comm, ← Nat.div_div_eq_div_mul]

theorem deserLE_nil : deserLE [] = 0 := rfl

theorem deserLE_cons (b : Nat) (bs : List Nat) :
    deserLE (b :: bs) = b + 256 * deserLE bs := rfl

theorem deserLE_serLE (w : Nat) : ∀ n : Nat, n < 256 ^ w → deserLE (serLE w n) = n := by
  induction w with
  | zero =>
      intro n hn
      interval_cases n
      rfl
  | succ w ih =>
      intro n hn
      rw [serLE_succ, deserLE_cons, ih (n / 256) ?_]
      · omega
      · rw [Nat.div_lt_iff_lt_mul (by norm_num)]
        calc n < 256 ^ (w + 1) := hn
        _ = 256 ^ w * 256 := by rw [pow_succ]

theorem deserBE_serBE (w n : Nat) (h : n < 256 ^ w) : deserBE (serBE w n) = n := by
  rw [serBE, deserBE, List.reverse_reverse, deserLE_serLE w n h]

theorem serLE_inj {w m n : Nat} (hm : m < 256 ^ w) (hn : n < 256 ^ w)
    (h : serLE w m = serLE w n) : m = n := by
  have := deserLE_serLE w m hm
  rw [h, deserLE_serLE w n hn] at this
  exact this.symm

/-- 256-bit hash serialization (32 bytes, little-endian). -/
def ser256 (n : Nat) : List Nat := serLE 32 n

/-- 160-bit address-hash serialization (20 bytes). -/
def ser160 (n : Nat) : List Nat := serLE 20 n

/-- 32-bit little-endian serialization (file numbers and output indices). -/
def ser32 (n : Nat) : List Nat := serLE 4 n

/-- 32-bit big-endian serialization (block heights and timestamps in
composite index keys; order-preserving). -/
def ser32be (n : Nat) : List Nat := serBE 4 n

/-! ## Key codec: type tags (txdb.cpp lines 23-42) -/

def DB_SPROUT_ANCHOR : Nat := 65
def DB_SAPLING_ANCHOR : Nat := 90
def DB_NULLIFIER : Nat := 115
def DB_SAPLING_NULLIFIER : Nat := 83
def DB_COINS : Nat := 99
def DB_BLOCK_FILES : Nat := 102
def DB_TXINDEX : Nat := 116
def DB_ADDRESSINDEX : Nat := 100
def DB_ADDRESSUNSPENTINDEX : Nat := 117
def DB_TIMESTAMPINDEX : Nat := 83
def DB_BLOCKHASHINDEX : Nat := 122
def DB_SPENTINDEX : Nat := 112
def DB_BLOCK_INDEX : Nat := 98
def DB_BEST_BLOCK : Nat := 66
def DB_BEST_SPROUT_ANCHOR : Nat := 97
def DB_BEST_SAPLING_ANCHOR : Nat := 122
def DB_FLAG : Nat := 70
def DB_REINDEX_FLAG : Nat := 82
def DB_LAST_BLOCK : Nat := 108

/-! ## Key codec: logical keys and their byte encoding

The composite index key structs (`CAddressIndexKey`, `CAddressUnspentKey`,
`CSpentIndexKey`, `CTimestampIndexKey`, `CTimestampBlockIndexKey`) are declared
in `txdb.h`/`spentindex.h`, which are not part of this snapshot.  Their field
lists and widths are modelled from the spec (section 3's key-payload table and
section 4.1's fixed field order, with big-endian heights/timestamps so that
byte order matches numeric order). -/

/-- Modelled from the spec: address-history index key
`(type, address hash, block height, tx id, output index)`. -/
structure CAddressIndexKey where
  typ : Nat
  hashBytes : Nat
  blockHeight : Nat
  txhash : Nat
  outIndex : Nat
deriving DecidableEq

/-- Modelled from the spec: address-unspent index key
`(type, address hash, tx id, output index)`. -/
structure CAddressUnspentKey where
  typ : Nat
  hashBytes : Nat
  txhash : Nat
  outIndex : Nat
deriving DecidableEq

/-- The logical key space: one variant per type tag + payload shape declared
in txdb.cpp (lines 23-42). -/
inductive LogicalKey where
  | sproutAnchor (rt : Nat)
  | saplingAnchor (rt : Nat)
  | sproutNullifier (nf : Nat)
  | saplingNullifier (nf : Nat)
  | coinsKey (txid : Nat)
  | blockFiles (nFile : Nat)
  | txIndexKey (txid : Nat)
  | addressIndexKey (k : CAddressIndexKey)
  | addressUnspentKey (k : CAddressUnspentKey)
  | timestampIndexKey (timestamp : Nat) (blockHash : Nat)
  | blockHashIndexKey (blockHash : Nat)
  | spentIndexKey (txid : Nat) (outputIndex : Nat)
  | blockIndexKey (blockHash : Nat)
  | bestBlock
  | bestSproutAnchor
  | bestSaplingAnchor
  | flagKey (name : List Nat)
  | reindexFlag
  | lastBlock
deriving DecidableEq

/-- The one-byte type tag of a logical key (the first byte of its encoding). -/
def keyTag : LogicalKey → Nat
  | .sproutAnchor _ => DB_SPROUT_ANCHOR
  | .saplingAnchor _ => DB_SAPLING_ANCHOR
  | .sproutNullifier _ => DB_NULLIFIER
  | .saplingNullifier _ => DB_SAPLING_NULLIFIER
  | .coinsKey _ => DB_COINS
  | .blockFiles _ => DB_BLOCK_FILES
  | .txIndexKey _ => DB_TXINDEX
  | .addressIndexKey _ => DB_ADDRESSINDEX
  | .addressUnspentKey _ => DB_ADDRESSUNSPENTINDEX
  | .timestampIndexKey _ _ => DB_TIMESTAMPINDEX
  | .blockHashIndexKey _ => DB_BLOCKHASHINDEX
  | .spentIndexKey _ _ => DB_SPENTINDEX
  | .blockIndexKey _ => DB_BLOCK_INDEX
  | .bestBlock => DB_BEST_BLOCK
  | .bestSproutAnchor => DB_BEST_SPROUT_ANCHOR
  | .bestSaplingAnchor => DB_BEST_SAPLING_ANCHOR
  | .flagKey _ => DB_FLAG
  | .reindexFlag => DB_REINDEX_FLAG
  | .lastBlock => DB_LAST_BLOCK

/-- Modelled from the spec: serialized payload of an address-history key. -/
def serAddressIndexKey (k : CAddressIndexKey) : List Nat :=
  [k.typ] ++ ser160 k.hashBytes ++ ser32be k.blockHeight ++ ser256 k.txhash
    ++ ser32be k.outIndex

/-- Modelled from the spec: serialized payload of an address-unspent key. -/
def serAddressUnspentKey (k : CAddressUnspentKey) : List Nat :=
  [k.typ] ++ ser160 k.hashBytes ++ ser256 k.txhash ++ ser32be k.outIndex

/-- Byte encoding of a logical key: the one-byte type tag followed by the
type-specific serialized payload (strings are length-prefixed; scalar slots
have an empty payload). -/
def encodeKey : LogicalKey → List Nat
  | .sproutAnchor rt => DB_SPROUT_ANCHOR :: ser256 rt
  | .saplingAnchor rt => DB_SAPLING_ANCHOR :: ser256 rt
  | .sproutNullifier nf => DB_NULLIFIER :: ser256 nf
  | .saplingNullifier nf => DB_SAPLING_NULLIFIER :: ser256 nf
  | .coinsKey txid => DB_COINS :: ser256 txid
  | .blockFiles nFile => DB_BLOCK_FILES :: ser32 nFile
  | .txIndexKey txid => DB_TXINDEX :: ser256 txid
  | .addressIndexKey k => DB_ADDRESSINDEX :: serAddressIndexKey k
  | .addressUnspentKey k => DB_ADDRESSUNSPENTINDEX :: serAddressUnspentKey k
  | .timestampIndexKey ts bh => DB_TIMESTAMPINDEX :: (ser32be ts ++ ser256 bh)
  | .blockHashIndexKey bh => DB_BLOCKHASHINDEX :: ser256 bh
  | .spentIndexKey txid oi => DB_SPENTINDEX :: (ser256 txid ++ ser32 oi)
  | .blockIndexKey bh => DB_BLOCK_INDEX :: ser256 bh
  | .bestBlock => [DB_BEST_BLOCK]
  | .bestSproutAnchor => [DB_BEST_SPROUT_ANCHOR]
  | .bestSaplingAnchor => [DB_BEST_SAPLING_ANCHOR]
  | .flagKey name => DB_FLAG :: name.length :: name
  | .reindexFlag => [DB_REINDEX_FLAG]
  | .lastBlock => [DB_LAST_BLOCK]

/-- Range validity of a logical key's payload fields: every hash fits its
declared byte width and flag names are short enough for a one-byte length
prefix. -/
def validKey : LogicalKey → Bool
  | .sproutAnchor rt => rt < 2 ^ 256
  | .saplingAnchor rt => rt < 2 ^ 256
  | .sproutNullifier nf => nf < 2 ^ 256
  | .saplingNullifier nf => nf < 2 ^ 256
  | .coinsKey txid => txid < 2 ^ 256
  | .blockFiles nFile => nFile < 2 ^ 32
  | .txIndexKey txid => txid < 2 ^ 256
  | .addressIndexKey k =>
      k.typ < 256 && k.hashBytes < 2 ^ 160 && k.blockHeight < 2 ^ 32
        && k.txhash < 2 ^ 256 && k.outIndex < 2 ^ 32
  | .addressUnspentKey k =>
      k.typ < 256 && k.hashBytes < 2 ^ 160 && k.txhash < 2 ^ 256
        && k.outIndex < 2 ^ 32
  | .timestampIndexKey ts bh => ts < 2 ^ 32 && bh < 2 ^ 256
  | .blockHashIndexKey bh => bh < 2 ^ 256
  | .spentIndexKey txid oi => txid < 2 ^ 256 && oi < 2 ^ 32
  | .blockIndexKey bh => bh < 2 ^ 256
  | .flagKey name => name.length < 253
  | _ => true

/-- Parse the 61-byte payload of an address-history key, reading the fields
in sequence the way `CDataStream >>` does. -/
def parseAddressIndexKey (rest : List Nat) : CAddressIndexKey :=
  let typ := rest.headD 0
  let r1 := rest.drop 1
  let hashBytes := deserLE (r1.take 20)
  let r2 := r1.drop 20
  let blockHeight := deserBE (r2.take 4)
  let r3 := r2.drop 4
  let txhash := deserLE (r3.take 32)
  let r4 := r3.drop 32
  let outIndex := deserBE (r4.take 4)
  ⟨typ, hashBytes, blockHeight, txhash, outIndex⟩

/-- Parse the 57-byte payload of an address-unspent key, reading the fields
in sequence the way `CDataStream >>` does. -/
def parseAddressUnspentKey (rest : List Nat) : CAddressUnspentKey :=
  let typ := rest.headD 0
  let r1 := rest.drop 1
  let hashBytes := deserLE (r1.take 20)
  let r2 := r1.drop 20
  let txhash := deserLE (r2.take 32)
  let r3 := r2.drop 32
  let outIndex := deserBE (r3.take 4)
  ⟨typ, hashBytes, txhash, outIndex⟩

/-- Decode a byte key back into a logical key.  Two type tags are shared
between index families in txdb.cpp (the byte of `DB_SAPLING_NULLIFIER` equals
that of `DB_TIMESTAMPINDEX`, and the byte of `DB_BLOCKHASHINDEX` equals that
of `DB_BEST_SAPLING_ANCHOR`); inside each shared tag the payload lengths
differ, which is what keeps the encoding injective. -/
def decodeKey : List Nat → Option LogicalKey
  | [] => none
  | t :: rest =>
    if t = DB_SPROUT_ANCHOR then
      if rest.length = 32 then some (.sproutAnchor (deserLE rest)) else none
    else if t = DB_SAPLING_ANCHOR then
      if rest.length = 32 then some (.saplingAnchor (deserLE rest)) else none
    else if t = DB_NULLIFIER then
      if rest.length = 32 then some (.sproutNullifier (deserLE rest)) else none
    else if t = DB_SAPLING_NULLIFIER then
      if rest.length = 32 then some (.saplingNullifier (deserLE rest))
      else if rest.length = 36 then
        some (.timestampIndexKey (deserBE (rest.take 4)) (deserLE (rest.drop 4)))
      else none
    else if t = DB_COINS then
      if rest.length = 32 then some (.coinsKey (deserLE rest)) else none
    else if t = DB_BLOCK_FILES then
      if rest.length = 4 then some (.blockFiles (deserLE rest)) else none
    else if t = DB_TXINDEX then
      if rest.length = 32 then some (.txIndexKey (deserLE rest)) else none
    else if t = DB_ADDRESSINDEX then
      if rest.length = 61 then some (.addressIndexKey (parseAddressIndexKey rest))
      else none
    else if t = DB_ADDRESSUNSPENTINDEX then
      if rest.length = 57 then some (.addressUnspentKey (parseAddressUnspentKey rest))
      else none
    else if t = DB_BLOCKHASHINDEX then
      if rest.length = 32 then some (.blockHashIndexKey (deserLE rest))
      else if rest.length = 0 then some .bestSaplingAnchor
      else none
    else if t = DB_SPENTINDEX then
      if rest.length = 36 then
        some (.spentIndexKey (deserLE (rest.take 32)) (deserLE (rest.drop 32)))
      else none
    else if t = DB_BLOCK_INDEX then
      if rest.length = 32 then some (.blockIndexKey (deserLE rest)) else none
    else if t = DB_BEST_BLOCK then
      if rest.length = 0 then some .bestBlock else none
    else if t = DB_BEST_SPROUT_ANCHOR then
      if rest.length = 0 then some .bestSproutAnchor else none
    else if t = DB_FLAG then
      match rest with
      | len :: nm => if nm.length = len then some (.flagKey nm) else none
      | [] => none
    else if t = DB_REINDEX_FLAG then
      if rest.length = 0 then some .reindexFlag else none
    else if t = DB_LAST_BLOCK then
      if rest.length = 0 then some .lastBlock else none
    else none

theorem ser256_length (n : Nat) : (ser256 n).length = 32 := serLE_length 32 n

theorem ser160_length (n : Nat) : (ser160 n).length = 20 := serLE_length 20 n

theorem ser32_length (n : Nat) : (ser32 n).length = 4 := serLE_length 4 n

theorem ser32be_length (n : Nat) : (ser32be n).length = 4 := serBE_length 4 n

theorem deserLE_ser256 {n : Nat} (h : n < 2 ^ 256) : deserLE (ser256 n) = n :=
  deserLE_serLE 32 n (by norm_num at h ⊢; omega)

theorem deserLE_ser160 {n : Nat} (h : n < 2 ^ 160) : deserLE (ser160 n) = n :=
  deserLE_serLE 20 n (by norm_num at h ⊢; omega)

theorem deserLE_ser32 {n : Nat} (h : n < 2 ^ 32) : deserLE (ser32 n) = n :=
  deserLE_serLE 4 n (by norm_num at h ⊢; omega)

theorem deserBE_ser32be {n : Nat} (h : n < 2 ^ 32) : deserBE (ser32be n) = n :=
  deserBE_serBE 4 n (by norm_num at h ⊢; omega)

theorem take4_ser32be (n : Nat) : (ser32be n).take 4 = ser32be n :=
  List.take_of_length_le (by rw [ser32be_length])

/-- Round-trip of the key codec: decoding an encoded valid logical key gives
back exactly that key. -/
theorem decodeKey_encodeKey (k : LogicalKey) (hv : validKey k = true) :
    decodeKey (encodeKey k) = some k := by
  cases k with
  | sproutAnchor rt =>
      simp only [validKey, decide_eq_true_eq] at hv
      simp [encodeKey, decodeKey, ser256_length, deserLE_ser256 hv]
  | saplingAnchor rt =>
      simp only [validKey, decide_eq_true_eq] at hv
      simp [encodeKey, decodeKey, DB_SAPLING_ANCHOR, DB_SPROUT_ANCHOR,
        ser256_length, deserLE_ser256 hv]
  | sproutNullifier nf =>
      simp only [validKey, decide_eq_true_eq] at hv
      simp [encodeKey, decodeKey, DB_NULLIFIER, DB_SPROUT_ANCHOR,
        DB_SAPLING_ANCHOR, ser256_length, deserLE_ser256 hv]
  | saplingNullifier nf =>
      simp only [validKey, decide_eq_true_eq] at hv
      simp [encodeKey, decodeKey, DB_SAPLING_NULLIFIER, DB_SPROUT_ANCHOR,
        DB_SAPLING_ANCHOR, DB_NULLIFIER, ser256_length, deserLE_ser256 hv]
  | coinsKey txid =>
      simp only [validKey, decide_eq_true_eq] at hv
      simp [encodeKey, decodeKey, DB_COINS, DB_SPROUT_ANCHOR, DB_SAPLING_ANCHOR,
        DB_NULLIFIER, DB_SAPLING_NULLIFIER, ser256_length, deserLE_ser256 hv]
  | blockFiles nFile =>
      simp only [validKey, decide_eq_true_eq] at hv
      simp [encodeKey, decodeKey, DB_BLOCK_FILES, DB_SPROUT_ANCHOR,
        DB_SAPLING_ANCHOR, DB_NULLIFIER, DB_SAPLING_NULLIFIER, DB_COINS,
        ser32_length, deserLE_ser32 hv]
  | txIndexKey txid =>
      simp only [validKey, decide_eq_true_eq] at hv
      simp [encodeKey, decodeKey, DB_TXINDEX, DB_SPROUT_ANCHOR,
        DB_SAPLING_ANCHOR, DB_NULLIFIER, DB_SAPLING_NULLIFIER, DB_COINS,
        DB_BLOCK_FILES, ser256_length, deserLE_ser256 hv]
  | addressIndexKey k =>
      obtain ⟨t, hsh, hgt, tx, oi⟩ := k
      simp only [validKey, Bool.and_eq_true, decide_eq_true_eq] at hv
      obtain ⟨⟨⟨⟨_, h1⟩, h2⟩, h3⟩, h4⟩ := hv
      simp [encodeKey, decodeKey, serAddressIndexKey, parseAddressIndexKey,
        DB_ADDRESSINDEX, DB_SPROUT_ANCHOR, DB_SAPLING_ANCHOR, DB_NULLIFIER,
        DB_SAPLING_NULLIFIER, DB_COINS, DB_BLOCK_FILES, DB_TXINDEX,
        ser160_length, ser32be_length, ser256_length,
        List.take_left', List.drop_left', take4_ser32be,
        deserLE_ser160 h1, deserBE_ser32be h2, deserLE_ser256 h3,
        deserBE_ser32be h4]
  | addressUnspentKey k =>
      obtain ⟨t, hsh, tx, oi⟩ := k
      simp only [validKey, Bool.and_eq_true, decide_eq_true_eq] at hv
      obtain ⟨⟨⟨_, h1⟩, h2⟩, h3⟩ := hv
      simp [encodeKey, decodeKey, serAddressUnspentKey, parseAddressUnspentKey,
        DB_ADDRESSUNSPENTINDEX, DB_SPROUT_ANCHOR, DB_SAPLING_ANCHOR,
        DB_NULLIFIER, DB_SAPLING_NULLIFIER, DB_COINS, DB_BLOCK_FILES,
        DB_TXINDEX, DB_ADDRESSINDEX, ser160_length, ser32be_length,
        ser256_length, List.take_left', List.drop_left', take4_ser32be,
        deserLE_ser160 h1, deserLE_ser256 h2, deserBE_ser32be h3]
  | timestampIndexKey ts bh =>
      simp only [validKey, Bool.and_eq_true, decide_eq_true_eq] at hv
      obtain ⟨h1, h2⟩ := hv
      simp [encodeKey, decodeKey, DB_TIMESTAMPINDEX, DB_SPROUT_ANCHOR,
        DB_SAPLING_ANCHOR, DB_NULLIFIER, DB_SAPLING_NULLIFIER,
        ser32be_length, ser256_length, List.take_left', List.drop_left',
        deserBE_ser32be h1, deserLE_ser256 h2]
  | blockHashIndexKey bh =>
      simp only [validKey, decide_eq_true_eq] at hv
      simp [encodeKey, decodeKey, DB_BLOCKHASHINDEX, DB_SPROUT_ANCHOR,
        DB_SAPLING_ANCHOR, DB_NULLIFIER, DB_SAPLING_NULLIFIER, DB_COINS,
        DB_BLOCK_FILES, DB_TXINDEX, DB_ADDRESSINDEX, DB_ADDRESSUNSPENTINDEX,
        ser256_length, deserLE_ser256 hv]
  | spentIndexKey txid oi =>
      simp only [validKey, Bool.and_eq_true, decide_eq_true_eq] at hv
      obtain ⟨h1, h2⟩ := hv
      simp [encodeKey, decodeKey, DB_SPENTINDEX, DB_SPROUT_ANCHOR,
        DB_SAPLING_ANCHOR, DB_NULLIFIER, DB_SAPLING_NULLIFIER, DB_COINS,
        DB_BLOCK_FILES, DB_TXINDEX, DB_ADDRESSINDEX, DB_ADDRESSUNSPENTINDEX,
        DB_BLOCKHASHINDEX, ser256_length, ser32_length,
        List.take_left', List.drop_left', deserLE_ser256 h1, deserLE_ser32 h2]
  | blockIndexKey bh =>
      simp only [validKey, decide_eq_true_eq] at hv
      simp [encodeKey, decodeKey, DB_BLOCK_INDEX, DB_SPROUT_ANCHOR,
        DB_SAPLING_ANCHOR, DB_NULLIFIER, DB_SAPLING_NULLIFIER, DB_COINS,
        DB_BLOCK_FILES, DB_TXINDEX, DB_ADDRESSINDEX, DB_ADDRESSUNSPENTINDEX,
        DB_BLOCKHASHINDEX, DB_SPENTINDEX, ser256_length, deserLE_ser256 hv]
  | bestBlock =>
      simp [encodeKey, decodeKey, DB_BEST_BLOCK, DB_SPROUT_ANCHOR,
        DB_SAPLING_ANCHOR, DB_NULLIFIER, DB_SAPLING_NULLIFIER, DB_COINS,
        DB_BLOCK_FILES, DB_TXINDEX, DB_ADDRESSINDEX, DB_ADDRESSUNSPENTINDEX,
        DB_BLOCKHASHINDEX, DB_SPENTINDEX, DB_BLOCK_INDEX]
  | bestSproutAnchor =>
      simp [encodeKey, decodeKey, DB_BEST_SPROUT_ANCHOR, DB_SPROUT_ANCHOR,
        DB_SAPLING_ANCHOR, DB_NULLIFIER, DB_SAPLING_NULLIFIER, DB_COINS,
        DB_BLOCK_FILES, DB_TXINDEX, DB_ADDRESSINDEX, DB_ADDRESSUNSPENTINDEX,
        DB_BLOCKHASHINDEX, DB_SPENTINDEX, DB_BLOCK_INDEX, DB_BEST_BLOCK]
  | bestSaplingAnchor =>
      simp [encodeKey, decodeKey, DB_BEST_SAPLING_ANCHOR, DB_SPROUT_ANCHOR,
        DB_SAPLING_ANCHOR, DB_NULLIFIER, DB_SAPLING_NULLIFIER, DB_COINS,
        DB_BLOCK_FILES, DB_TXINDEX, DB_ADDRESSINDEX, DB_ADDRESSUNSPENTINDEX,
        DB_BLOCKHASHINDEX]
  | flagKey name =>
      simp [encodeKey, decodeKey, DB_FLAG, DB_SPROUT_ANCHOR, DB_SAPLING_ANCHOR,
        DB_NULLIFIER, DB_SAPLING_NULLIFIER, DB_COINS, DB_BLOCK_FILES,
        DB_TXINDEX, DB_ADDRESSINDEX, DB_ADDRESSUNSPENTINDEX, DB_BLOCKHASHINDEX,
        DB_SPENTINDEX, DB_BLOCK_INDEX, DB_BEST_BLOCK, DB_BEST_SPROUT_ANCHOR]
  | reindexFlag =>
      simp [encodeKey, decodeKey, DB_REINDEX_FLAG, DB_SPROUT_ANCHOR,
        DB_SAPLING_ANCHOR, DB_NULLIFIER, DB_SAPLING_NULLIFIER, DB_COINS,
        DB_BLOCK_FILES, DB_TXINDEX, DB_ADDRESSINDEX, DB_ADDRESSUNSPENTINDEX,
        DB_BLOCKHASHINDEX, DB_SPENTINDEX, DB_BLOCK_INDEX, DB_BEST_BLOCK,
        DB_BEST_SPROUT_ANCHOR, DB_FLAG]
  | lastBlock =>
      simp [encodeKey, decodeKey, DB_LAST_BLOCK, DB_SPROUT_ANCHOR,
        DB_SAPLING_ANCHOR, DB_NULLIFIER, DB_SAPLING_NULLIFIER, DB_COINS,
        DB_BLOCK_FILES, DB_TXINDEX, DB_ADDRESSINDEX, DB_ADDRESSUNSPENTINDEX,
        DB_BLOCKHASHINDEX, DB_SPENTINDEX, DB_BLOCK_INDEX, DB_BEST_BLOCK,
        DB_BEST_SPROUT_ANCHOR, DB_FLAG, DB_REINDEX_FLAG]

/-! ## Claim C1 -/

/-- Claim C1 (amended): the key encoding is injective across all logical key
types — two distinct valid logical keys (differing in type tag or payload)
always encode to distinct byte keys.  (The original claim's additional
assertion that no two distinct index types share a one-byte type tag is false;
see the counterexample.  Where tags are shared, differing payload lengths keep
the encoding injective.) -/
theorem c1_encodeKey_injective (k1 k2 : LogicalKey)
    (h1 : validKey k1 = true) (h2 : validKey k2 = true)
    (he : encodeKey k1 = encodeKey k2) : k1 = k2 := by
  have d1 := decodeKey_encodeKey k1 h1
  have d2 := decodeKey_encodeKey k2 h2
  rw [he, d2] at d1
  exact (Option.some.injEq _ _ ▸ d1).symm

/-- Witness for C1: the injectivity theorem applied at a concrete key. -/
theorem c1_witness :
    validKey (LogicalKey.coinsKey 5) = true ∧
      LogicalKey.coinsKey 5 = LogicalKey.coinsKey 5 :=
  ⟨by decide, c1_encodeKey_injective (.coinsKey 5) (.coinsKey 5)
    (by decide) (by decide) rfl⟩

/-- Counterexample for C1 as stated: two pairs of distinct index types DO
share a one-byte type tag.  The Sapling-nullifier index and the timestamp
index both use the byte of `'S'`, and the block-hash index and the
best-Sapling-anchor slot both use the byte of `'z'` (txdb.cpp lines 26, 32,
33, 39). -/
theorem c1_counterexample :
    (LogicalKey.saplingNullifier 0 ≠ LogicalKey.timestampIndexKey 0 0 ∧
      keyTag (LogicalKey.saplingNullifier 0)
        = keyTag (LogicalKey.timestampIndexKey 0 0)) ∧
    (LogicalKey.blockHashIndexKey 0 ≠ LogicalKey.bestSaplingAnchor ∧
      keyTag (LogicalKey.blockHashIndexKey 0) = keyTag LogicalKey.bestSaplingAnchor) ∧
    DB_SAPLING_NULLIFIER = DB_TIMESTAMPINDEX ∧
    DB_BLOCKHASHINDEX = DB_BEST_SAPLING_ANCHOR := by
  refine ⟨⟨by decide, ?_⟩, ⟨by decide, ?_⟩, rfl, rfl⟩ <;> rfl

/-! ## The database model

The LevelDB wrapper (`CDBWrapper` / `CDBBatch` in dbwrapper.h, outside this
snapshot) is modelled as an association list from byte keys to values, with
point read, write, erase, and an operation batch applied in order. -/

/-- Transaction outputs.  `CTxOut` lives in the missing core headers; modelled
from the spec: an output carries a value and a script, and a designated null
sentinel shape (`nValue = -1`) marks a null output. -/
structure CTxOut where
  nValue : Int
  scriptPubKey : List Nat
deriving DecidableEq

/-- The null-output test of `CTxOut` (missing header; the null sentinel is the
value `-1`). -/
def CTxOut.isNull (o : CTxOut) : Bool := o.nValue = -1

/-- A coin record: the output set persisted under a transaction id
(`CCoins` in the missing coins.h; only the outputs matter here). -/
structure CCoins where
  vout : List CTxOut
deriving DecidableEq

/-- Modelled from the spec: a coin record is pruned (fully spent) when every
contained output is null; pruned records are erased rather than written. -/
def CCoins.isPruned (c : CCoins) : Bool := c.vout.all fun o => o.isNull

/-- Values stored in the database, one variant per persisted value shape. -/
inductive DBValue where
  | boolV (b : Bool)
  | hashV (h : Nat)
  | charV (c : Nat)
  | treeV (t : Nat)
  | coinsV (c : CCoins)
deriving DecidableEq

/-- The persistent store: an association list from byte keys to values. -/
abbrev DBState := List (List Nat × DBValue)

/-- Point read (`CDBWrapper::Read`). -/
def dbRead : DBState → List Nat → Option DBValue
  | [], _ => none
  | (k, v) :: rest, q => if k = q then some v else dbRead rest q

/-- Key-presence test (`CDBWrapper::Exists`). -/
def dbExists (db : DBState) (q : List Nat) : Bool := (dbRead db q).isSome

/-- Remove every binding of a key (`CDBWrapper::Erase`). -/
def dbEraseKey : DBState → List Nat → DBState
  | [], _ => []
  | (k, v) :: rest, q =>
      if k = q then dbEraseKey rest q else (k, v) :: dbEraseKey rest q

/-- Insert-or-replace a binding (`CDBWrapper::Write`). -/
def dbWrite (db : DBState) (q : List Nat) (v : DBValue) : DBState :=
  (q, v) :: dbEraseKey db q

/-- One accumulated batch operation (`CDBBatch::Write` / `CDBBatch::Erase`). -/
inductive BatchOp where
  | write (key : List Nat) (value : DBValue)
  | erase (key : List Nat)
deriving DecidableEq

/-- The key an operation touches. -/
def opKey : BatchOp → List Nat
  | .write k _ => k
  | .erase k => k

/-- Apply one batch operation to the store. -/
def applyOp (db : DBState) : BatchOp → DBState
  | .write k v => dbWrite db k v
  | .erase k => dbEraseKey db k

/-- Apply an accumulated batch in order (`CDBWrapper::WriteBatch`, successful
commit). -/
def applyBatch (db : DBState) (ops : List BatchOp) : DBState :=
  ops.foldl applyOp db

theorem dbRead_dbWrite_self (db : DBState) (k : List Nat) (v : DBValue) :
    dbRead (dbWrite db k v) k = some v := by
  simp [dbWrite, dbRead]

theorem dbRead_dbEraseKey_self (db : DBState) (k : List Nat) :
    dbRead (dbEraseKey db k) k = none := by
  induction db with
  | nil => rfl
  | cons p rest ih =>
      obtain ⟨k', v'⟩ := p
      by_cases h : k' = k <;> simp [dbEraseKey, dbRead, h, ih]

theorem dbRead_dbWrite_ne (db : DBState) (k q : List Nat) (v : DBValue)
    (h : k ≠ q) : dbRead (dbWrite db k v) q = dbRead db q := by
  have he : ∀ d : DBState, dbRead (dbEraseKey d k) q = dbRead d q := by
    intro d
    induction d with
    | nil => rfl
    | cons p rest ih =>
        obtain ⟨k', v'⟩ := p
        by_cases hk : k' = k
        · subst hk; simp [dbEraseKey, dbRead, h, ih]
        · by_cases hq : k' = q <;> simp [dbEraseKey, dbRead, hk, hq, ih, Ne.symm h]
  simp [dbWrite, dbRead, fun hkq : k = q => h hkq, he]

theorem dbRead_dbEraseKey_ne (db : DBState) (k q : List Nat) (h : k ≠ q) :
    dbRead (dbEraseKey db k) q = dbRead db q := by
  induction db with
  | nil => rfl
  | cons p rest ih =>
      obtain ⟨k', v'⟩ := p
      by_cases hk : k' = k
      · subst hk; simp [dbEraseKey, dbRead, h, ih]
      · by_cases hq : k' = q <;> simp [dbEraseKey, dbRead, hk, hq, ih, Ne.symm h]

theorem dbRead_applyOp_ne (db : DBState) (op : BatchOp) (q : List Nat)
    (h : opKey op ≠ q) : dbRead (applyOp db op) q = dbRead db q := by
  cases op with
  | write k v => exact dbRead_dbWrite_ne db k q v h
  | erase k => exact dbRead_dbEraseKey_ne db k q h

theorem dbRead_applyBatch_untouched (ops : List BatchOp) (db : DBState)
    (q : List Nat) (h : ∀ op ∈ ops, opKey op ≠ q) :
    dbRead (applyBatch db ops) q = dbRead db q := by
  induction ops generalizing db with
  | nil => rfl
  | cons op rest ih =>
      rw [applyBatch, List.foldl_cons, ← applyBatch]
      rw [ih (applyOp db op) fun o ho => h o (List.mem_cons_of_mem op ho)]
      exact dbRead_applyOp_ne db op q (h op (List.mem_cons_self op rest))

theorem applyBatch_append (db : DBState) (l1 l2 : List BatchOp) :
    applyBatch db (l1 ++ l2) = applyBatch (applyBatch db l1) l2 := by
  simp [applyBatch, List.foldl_append]

/-! ## Coin-set flush (CCoinsViewDB::BatchWrite and its helpers,
txdb.cpp lines 127-200)

The cache maps (`CCoinsMap`, `CAnchorsSproutMap`, `CAnchorsSaplingMap`,
`CNullifiersMap` from the missing coins.h) are embedded as association lists
in iteration order; a cache entry carries its `entered` flag and the `DIRTY`
bit of its flags field.  Each flush helper walks its map, accumulates batch
operations for the dirty entries, and erases every visited entry, returning
the accumulated operations together with the drained map. -/

/-- Nullifier cache entry (`CNullifiersCacheEntry`): `entered` = the nullifier
should be present after flush; `dirty` = the `DIRTY` flag bit. -/
structure CNullifiersCacheEntry where
  entered : Bool
  dirty : Bool
deriving DecidableEq

/-- Anchor cache entry (`CAnchorsSproutCacheEntry` / `CAnchorsSaplingCacheEntry`):
the cached commitment tree (its serialized content as an opaque payload),
`entered`, and the `DIRTY` flag bit. -/
structure CAnchorsCacheEntry where
  tree : Nat
  entered : Bool
  dirty : Bool
deriving DecidableEq

/-- Coin cache entry (`CCoinsCacheEntry`): the cached coin record and the
`DIRTY` flag bit (coins have no `entered` flag; `IsPruned` plays its role). -/
structure CCoinsCacheEntry where
  coins : CCoins
  dirty : Bool
deriving DecidableEq

abbrev CNullifiersMap := List (Nat × CNullifiersCacheEntry)
abbrev CAnchorsMap := List (Nat × CAnchorsCacheEntry)
abbrev CCoinsMap := List (Nat × CCoinsCacheEntry)

/-- Modelled from the spec (I1): the per-tree-type empty-root constants
(`SproutMerkleTree::empty_root()` / `SaplingMerkleTree::empty_root()` from the
missing incremental-merkle-tree header): well-known, distinct, non-null. -/
def sproutEmptyRoot : Nat := 1

/-- Modelled from the spec (I1): the Sapling empty-root constant. -/
def saplingEmptyRoot : Nat := 2

/-- The canonical (default-constructed) empty Sprout commitment tree. -/
def sproutEmptyTree : Nat := 0

/-- The canonical (default-constructed) empty Sapling commitment tree. -/
def saplingEmptyTree : Nat := 0

/-- `BatchWriteNullifiers` (txdb.cpp lines 127-140): for each entry with the
DIRTY flag, erase the key when `entered` is false, otherwise write `true`;
every visited entry is erased from the map. -/
def BatchWriteNullifiers (dbChar : Nat) : CNullifiersMap → List BatchOp × CNullifiersMap
  | [] => ([], [])
  | (nf, e) :: rest =>
      let tail := BatchWriteNullifiers dbChar rest
      ((if e.dirty then
          [if e.entered then BatchOp.write (dbChar :: ser256 nf) (.boolV true)
           else BatchOp.erase (dbChar :: ser256 nf)]
        else []) ++ tail.1, tail.2)

/-- `BatchWriteAnchors` (txdb.cpp lines 142-159): for each entry with the
DIRTY flag, erase the key when `entered` is false, otherwise write the cached
tree — but only when the root is not the tree type's empty root; every visited
entry is erased from the map. -/
def BatchWriteAnchors (dbChar emptyRoot : Nat) : CAnchorsMap → List BatchOp × CAnchorsMap
  | [] => ([], [])
  | (rt, e) :: rest =>
      let tail := BatchWriteAnchors dbChar emptyRoot rest
      ((if e.dirty then
          (if !e.entered then [BatchOp.erase (dbChar :: ser256 rt)]
           else if rt ≠ emptyRoot then
             [BatchOp.write (dbChar :: ser256 rt) (.treeV e.tree)]
           else [])
        else []) ++ tail.1, tail.2)

/-- The coin loop of `CCoinsViewDB::BatchWrite` (txdb.cpp lines 172-183): for
each entry with the DIRTY flag, erase the key when the record is pruned,
otherwise write the record; every visited entry is erased from the map. -/
def batchWriteCoinsLoop : CCoinsMap → List BatchOp × CCoinsMap
  | [] => ([], [])
  | (txid, e) :: rest =>
      let tail := batchWriteCoinsLoop rest
      ((if e.dirty then
          [if e.coins.isPruned then BatchOp.erase (DB_COINS :: ser256 txid)
           else BatchOp.write (DB_COINS :: ser256 txid) (.coinsV e.coins)]
        else []) ++ tail.1, tail.2)

/-- `uint256::IsNull` — the all-zero hash. -/
def uint256IsNull (h : Nat) : Bool := h = 0

/-- The outcome of `CCoinsViewDB::BatchWrite`: the commit result, the store
after the flush, the accumulated batch, and the five drained cache maps. -/
structure FlushOutcome where
  ok : Bool
  dbAfter : DBState
  ops : List BatchOp
  mapCoins : CCoinsMap
  mapSproutAnchors : CAnchorsMap
  mapSaplingAnchors : CAnchorsMap
  mapSproutNullifiers : CNullifiersMap
  mapSaplingNullifiers : CNullifiersMap

/-- `CCoinsViewDB::BatchWrite` (txdb.cpp lines 161-200): drain the coin map,
the two anchor maps and the two nullifier maps into one batch, append the
conditional best-slot writes (best block, best Sprout anchor, best Sapling
anchor — each only when the supplied hash is non-null), and commit the batch
atomically.  `commitOk` stands for the underlying engine's commit result
(`db.WriteBatch(batch)`); the maps are drained either way. -/
def CCoinsViewDB_BatchWrite (db : DBState) (commitOk : Bool)
    (mapCoins : CCoinsMap) (hashBlock hashSproutAnchor hashSaplingAnchor : Nat)
    (mapSproutAnchors mapSaplingAnchors : CAnchorsMap)
    (mapSproutNullifiers mapSaplingNullifiers : CNullifiersMap) : FlushOutcome :=
  let c := batchWriteCoinsLoop mapCoins
  let a1 := BatchWriteAnchors DB_SPROUT_ANCHOR sproutEmptyRoot mapSproutAnchors
  let a2 := BatchWriteAnchors DB_SAPLING_ANCHOR saplingEmptyRoot mapSaplingAnchors
  let n1 := BatchWriteNullifiers DB_NULLIFIER mapSproutNullifiers
  let n2 := BatchWriteNullifiers DB_SAPLING_NULLIFIER mapSaplingNullifiers
  let best :=
    (if !uint256IsNull hashBlock then
        [BatchOp.write [DB_BEST_BLOCK] (.hashV hashBlock)] else [])
    ++ (if !uint256IsNull hashSproutAnchor then
        [BatchOp.write [DB_BEST_SPROUT_ANCHOR] (.hashV hashSproutAnchor)] else [])
    ++ (if !uint256IsNull hashSaplingAnchor then
        [BatchOp.write [DB_BEST_SAPLING_ANCHOR] (.hashV hashSaplingAnchor)] else [])
  let ops := c.1 ++ a1.1 ++ a2.1 ++ n1.1 ++ n2.1 ++ best
  { ok := commitOk
  , dbAfter := if commitOk then applyBatch db ops else db
  , ops := ops
  , mapCoins := c.2
  , mapSproutAnchors := a1.2
  , mapSaplingAnchors := a2.2
  , mapSproutNullifiers := n1.2
  , mapSaplingNullifiers := n2.2 }

/-- `CCoinsViewDB::GetSproutAnchorAt` (txdb.cpp lines 53-63): the empty root
is answered directly with a fresh empty tree; any other root is read from
disk.  `tree` is the caller's out-parameter, left unchanged on a failed
read. -/
def GetSproutAnchorAt (db : DBState) (rt : Nat) (tree : Nat) : Bool × Nat :=
  if rt = sproutEmptyRoot then (true, sproutEmptyTree)
  else
    match dbRead db (DB_SPROUT_ANCHOR :: ser256 rt) with
    | some (.treeV t) => (true, t)
    | _ => (false, tree)

/-- `CCoinsViewDB::GetSaplingAnchorAt` (txdb.cpp lines 65-75). -/
def GetSaplingAnchorAt (db : DBState) (rt : Nat) (tree : Nat) : Bool × Nat :=
  if rt = saplingEmptyRoot then (true, saplingEmptyTree)
  else
    match dbRead db (DB_SAPLING_ANCHOR :: ser256 rt) with
    | some (.treeV t) => (true, t)
    | _ => (false, tree)

/-! ## Claims C2, C3, C4 -/

theorem mem_BatchWriteNullifiers (dbChar : Nat) (m : CNullifiersMap) (nf : Nat)
    (e : CNullifiersCacheEntry) (hm : (nf, e) ∈ m) (hd : e.dirty = true) :
    (if e.entered then BatchOp.write (dbChar :: ser256 nf) (.boolV true)
     else BatchOp.erase (dbChar :: ser256 nf)) ∈ (BatchWriteNullifiers dbChar m).1 := by
  induction m with
  | nil => cases hm
  | cons p rest ih =>
      obtain ⟨nf', e'⟩ := p
      rw [BatchWriteNullifiers]
      rcases List.mem_cons.mp hm with heq | hmem
      · obtain ⟨h1, h2⟩ := Prod.mk.injEq .. ▸ heq
        subst h1; subst h2
        simp [hd]
      · exact List.mem_append_right _ (ih hmem)

theorem mem_BatchWriteAnchors (dbChar emptyRoot : Nat) (m : CAnchorsMap)
    (rt : Nat) (e : CAnchorsCacheEntry) (hm : (rt, e) ∈ m) (hd : e.dirty = true) :
    (e.entered = false → BatchOp.erase (dbChar :: ser256 rt)
        ∈ (BatchWriteAnchors dbChar emptyRoot m).1) ∧
    (e.entered = true → rt ≠ emptyRoot → BatchOp.write (dbChar :: ser256 rt)
        (.treeV e.tree) ∈ (BatchWriteAnchors dbChar emptyRoot m).1) := by
  induction m with
  | nil => cases hm
  | cons p rest ih =>
      obtain ⟨rt', e'⟩ := p
      rw [BatchWriteAnchors]
      rcases List.mem_cons.mp hm with heq | hmem
      · obtain ⟨h1, h2⟩ := Prod.mk.injEq .. ▸ heq
        subst h1; subst h2
        constructor
        · intro hent; simp [hd, hent]
        · intro hent hne; simp [hd, hent, hne]
      · exact ⟨fun hent => List.mem_append_right _ ((ih hmem).1 hent),
          fun hent hne => List.mem_append_right _ ((ih hmem).2 hent hne)⟩

theorem mem_batchWriteCoinsLoop (m : CCoinsMap) (txid : Nat)
    (e : CCoinsCacheEntry) (hm : (txid, e) ∈ m) (hd : e.dirty = true) :
    (if e.coins.isPruned then BatchOp.erase (DB_COINS :: ser256 txid)
     else BatchOp.write (DB_COINS :: ser256 txid) (.coinsV e.coins))
      ∈ (batchWriteCoinsLoop m).1 := by
  induction m with
  | nil => cases hm
  | cons p rest ih =>
      obtain ⟨txid', e'⟩ := p
      rw [batchWriteCoinsLoop]
      rcases List.mem_cons.mp hm with heq | hmem
      · obtain ⟨h1, h2⟩ := Prod.mk.injEq .. ▸ heq
        subst h1; subst h2
        simp [hd]
      · exact List.mem_append_right _ (ih hmem)

/-- Claim C2 (amended): every dirty cache entry of the coin-set flush is
translated — independently of any prior persisted value, which the
accumulation never consults — as follows: `entered = false` becomes a batch
deletion of the entry's key; `entered = true` becomes a batch upsert of its
value, except that an anchor entry whose root equals its tree type's empty
root is skipped (I1).  For coins, whose cache entries carry no `entered`
flag, a pruned record plays the `entered = false` role. -/
theorem c2_flush_translation :
    (∀ (dbChar : Nat) (m : CNullifiersMap) (nf : Nat) (e : CNullifiersCacheEntry),
        (nf, e) ∈ m → e.dirty = true →
        (e.entered = false → BatchOp.erase (dbChar :: ser256 nf)
            ∈ (BatchWriteNullifiers dbChar m).1) ∧
        (e.entered = true → BatchOp.write (dbChar :: ser256 nf) (.boolV true)
            ∈ (BatchWriteNullifiers dbChar m).1)) ∧
    (∀ (dbChar emptyRoot : Nat) (m : CAnchorsMap) (rt : Nat) (e : CAnchorsCacheEntry),
        (rt, e) ∈ m → e.dirty = true →
        (e.entered = false → BatchOp.erase (dbChar :: ser256 rt)
            ∈ (BatchWriteAnchors dbChar emptyRoot m).1) ∧
        (e.entered = true → rt ≠ emptyRoot → BatchOp.write (dbChar :: ser256 rt)
            (.treeV e.tree) ∈ (BatchWriteAnchors dbChar emptyRoot m).1)) ∧
    (∀ (m : CCoinsMap) (txid : Nat) (e : CCoinsCacheEntry),
        (txid, e) ∈ m → e.dirty = true →
        (e.coins.isPruned = true → BatchOp.erase (DB_COINS :: ser256 txid)
            ∈ (batchWriteCoinsLoop m).1) ∧
        (e.coins.isPruned = false → BatchOp.write (DB_COINS :: ser256 txid)
            (.coinsV e.coins) ∈ (batchWriteCoinsLoop m).1)) := by
  refine ⟨fun dbChar m nf e hm hd => ⟨fun hent => ?_, fun hent => ?_⟩,
    fun dbChar eR m rt e hm hd => mem_BatchWriteAnchors dbChar eR m rt e hm hd,
    fun m txid e hm hd => ⟨fun hp => ?_, fun hp => ?_⟩⟩
  · have := mem_BatchWriteNullifiers dbChar m nf e hm hd
    rwa [hent, if_neg (by simp)] at this
  · have := mem_BatchWriteNullifiers dbChar m nf e hm hd
    rwa [hent, if_pos rfl] at this
  · have := mem_batchWriteCoinsLoop m txid e hm hd
    rwa [hp, if_pos rfl] at this
  · have := mem_batchWriteCoinsLoop m txid e hm hd
    rwa [hp, if_neg (by simp)] at this

/-- Witness for C2: the translation theorem applied at concrete dirty
entries of each of the three kinds. -/
theorem c2_witness :
    BatchOp.erase (DB_NULLIFIER :: ser256 3)
        ∈ (BatchWriteNullifiers DB_NULLIFIER [(3, ⟨false, true⟩)]).1 ∧
    BatchOp.write (DB_SPROUT_ANCHOR :: ser256 4) (.treeV 9)
        ∈ (BatchWriteAnchors DB_SPROUT_ANCHOR sproutEmptyRoot [(4, ⟨9, true, true⟩)]).1 ∧
    BatchOp.write (DB_COINS :: ser256 6) (.coinsV ⟨[⟨2, []⟩]⟩)
        ∈ (batchWriteCoinsLoop [(6, ⟨⟨[⟨2, []⟩]⟩, true⟩)]).1 :=
  ⟨(c2_flush_translation.1 DB_NULLIFIER [(3, ⟨false, true⟩)] 3 ⟨false, true⟩
      (List.mem_singleton.mpr rfl) rfl).1 rfl,
   (c2_flush_translation.2.1 DB_SPROUT_ANCHOR sproutEmptyRoot [(4, ⟨9, true, true⟩)]
      4 ⟨9, true, true⟩ (List.mem_singleton.mpr rfl) rfl).2 rfl (by decide),
   (c2_flush_translation.2.2 [(6, ⟨⟨[⟨2, []⟩]⟩, true⟩)] 6 ⟨⟨[⟨2, []⟩]⟩, true⟩
      (List.mem_singleton.mpr rfl) rfl).2 (by decide)⟩

/-- Counterexample for C2 as stated: a dirty anchor entry with
`entered = true` whose root is the empty root is NOT translated into a batch
upsert — the flush helper emits no operation at all for it (txdb.cpp line
150 guards the write with `it->first != Tree::empty_root()`). -/
theorem c2_counterexample :
    (BatchWriteAnchors DB_SPROUT_ANCHOR sproutEmptyRoot
        [(sproutEmptyRoot, ⟨7, true, true⟩)]).1 = [] ∧
    (CAnchorsCacheEntry.mk 7 true true).dirty = true ∧
    (CAnchorsCacheEntry.mk 7 true true).entered = true := by
  refine ⟨?_, rfl, rfl⟩
  decide

theorem BatchWriteNullifiers_drains (dbChar : Nat) (m : CNullifiersMap) :
    (BatchWriteNullifiers dbChar m).2 = [] := by
  induction m with
  | nil => rfl
  | cons p rest ih => rw [BatchWriteNullifiers]; exact ih

theorem BatchWriteAnchors_drains (dbChar emptyRoot : Nat) (m : CAnchorsMap) :
    (BatchWriteAnchors dbChar emptyRoot m).2 = [] := by
  induction m with
  | nil => rfl
  | cons p rest ih => rw [BatchWriteAnchors]; exact ih

theorem batchWriteCoinsLoop_drains (m : CCoinsMap) :
    (batchWriteCoinsLoop m).2 = [] := by
  induction m with
  | nil => rfl
  | cons p rest ih => rw [batchWriteCoinsLoop]; exact ih

/-- Claim C3: after any call to the coin-set flush every input delta map is
empty — each visited entry is erased during the traversal, whether or not it
produced a disk operation, and independently of the commit result
(`commitOk` is universally quantified and the drained maps do not depend on
it). -/
theorem c3_flush_drains_all_maps (db : DBState) (commitOk : Bool)
    (mapCoins : CCoinsMap) (hashBlock hashSproutAnchor hashSaplingAnchor : Nat)
    (mapSproutAnchors mapSaplingAnchors : CAnchorsMap)
    (mapSproutNullifiers mapSaplingNullifiers : CNullifiersMap) :
    (CCoinsViewDB_BatchWrite db commitOk mapCoins hashBlock hashSproutAnchor
        hashSaplingAnchor mapSproutAnchors mapSaplingAnchors
        mapSproutNullifiers mapSaplingNullifiers).mapCoins = [] ∧
    (CCoinsViewDB_BatchWrite db commitOk mapCoins hashBlock hashSproutAnchor
        hashSaplingAnchor mapSproutAnchors mapSaplingAnchors
        mapSproutNullifiers mapSaplingNullifiers).mapSproutAnchors = [] ∧
    (CCoinsViewDB_BatchWrite db commitOk mapCoins hashBlock hashSproutAnchor
        hashSaplingAnchor mapSproutAnchors mapSaplingAnchors
        mapSproutNullifiers mapSaplingNullifiers).mapSaplingAnchors = [] ∧
    (CCoinsViewDB_BatchWrite db commitOk mapCoins hashBlock hashSproutAnchor
        hashSaplingAnchor mapSproutAnchors mapSaplingAnchors
        mapSproutNullifiers mapSaplingNullifiers).mapSproutNullifiers = [] ∧
    (CCoinsViewDB_BatchWrite db commitOk mapCoins hashBlock hashSproutAnchor
        hashSaplingAnchor mapSproutAnchors mapSaplingAnchors
        mapSproutNullifiers mapSaplingNullifiers).mapSaplingNullifiers = [] := by
  refine ⟨?_, ?_, ?_, ?_, ?_⟩ <;>
    simp [CCoinsViewDB_BatchWrite, batchWriteCoinsLoop_drains,
      BatchWriteAnchors_drains, BatchWriteNullifiers_drains]

theorem bwAnchors_no_write_at_emptyRoot (dbChar emptyRoot : Nat)
    (m : CAnchorsMap) (hkeys : ∀ p ∈ m, p.1 < 2 ^ 256) (hE : emptyRoot < 2 ^ 256)
    (v : DBValue) :
    BatchOp.write (dbChar :: ser256 emptyRoot) v
      ∉ (BatchWriteAnchors dbChar emptyRoot m).1 := by
  induction m with
  | nil => simp [BatchWriteAnchors]
  | cons p rest ih =>
      obtain ⟨rt, e⟩ := p
      rw [BatchWriteAnchors]
      intro hmem
      rcases List.mem_append.mp hmem with hhead | htail
      · have hrt : rt < 2 ^ 256 := hkeys (rt, e) (List.mem_cons_self _ _)
        by_cases hd : e.dirty
        · by_cases hent : e.entered
          · by_cases hne : rt = emptyRoot
            · rw [if_pos hd, if_neg (by simp [hent]), if_neg (by simp [hne])] at hhead
              cases hhead
            · rw [if_pos hd, if_neg (by simp [hent]), if_pos hne] at hhead
              have heq := List.mem_singleton.mp hhead
              have hkey : (dbChar :: ser256 emptyRoot) = (dbChar :: ser256 rt) :=
                congrArg opKey heq
              have hser : ser256 emptyRoot = ser256 rt :=
                (List.cons_eq_cons.mp hkey).2
              exact hne (serLE_inj (by norm_num at hrt ⊢; omega)
                (by norm_num at hE ⊢; omega) hser.symm)
          · rw [if_pos hd, if_pos (by simp [hent])] at hhead
            have heq := List.mem_singleton.mp hhead
            cases heq
        · rw [if_neg hd] at hhead
          cases hhead
      · exact ih (fun p hp => hkeys p (List.mem_cons_of_mem _ hp)) htail

/-- Claim C4: the empty-root constant is never persisted and never read from
disk.  Flushing an anchor delta entry whose root equals its tree type's empty
root issues no batch write for that key (for either pool), and the anchor
getters answer the empty root with the canonical empty tree and `true`
uniformly in the store state — i.e. without a disk read. -/
theorem c4_empty_root_not_persisted (m1 m2 : CAnchorsMap)
    (h1 : ∀ p ∈ m1, p.1 < 2 ^ 256) (h2 : ∀ p ∈ m2, p.1 < 2 ^ 256) :
    (∀ v, BatchOp.write (DB_SPROUT_ANCHOR :: ser256 sproutEmptyRoot) v
        ∉ (BatchWriteAnchors DB_SPROUT_ANCHOR sproutEmptyRoot m1).1) ∧
    (∀ v, BatchOp.write (DB_SAPLING_ANCHOR :: ser256 saplingEmptyRoot) v
        ∉ (BatchWriteAnchors DB_SAPLING_ANCHOR saplingEmptyRoot m2).1) ∧
    (∀ (db : DBState) (tree : Nat),
        GetSproutAnchorAt db sproutEmptyRoot tree = (true, sproutEmptyTree)) ∧
    (∀ (db : DBState) (tree : Nat),
        GetSaplingAnchorAt db saplingEmptyRoot tree = (true, saplingEmptyTree)) := by
  refine ⟨fun v => bwAnchors_no_write_at_emptyRoot _ _ m1 h1 (by norm_num [sproutEmptyRoot]) v,
    fun v => bwAnchors_no_write_at_emptyRoot _ _ m2 h2 (by norm_num [saplingEmptyRoot]) v,
    fun db tree => ?_, fun db tree => ?_⟩
  · simp [GetSproutAnchorAt]
  · simp [GetSaplingAnchorAt]

/-- Witness for C4: the theorem applied at concrete anchor maps containing a
dirty empty-root entry and a dirty non-empty-root entry. -/
theorem c4_witness :
    BatchOp.write (DB_SPROUT_ANCHOR :: ser256 sproutEmptyRoot) (.treeV 7)
        ∉ (BatchWriteAnchors DB_SPROUT_ANCHOR sproutEmptyRoot
            [(sproutEmptyRoot, ⟨7, true, true⟩), (5, ⟨8, true, true⟩)]).1 ∧
    GetSproutAnchorAt [] sproutEmptyRoot 99 = (true, sproutEmptyTree) :=
  ⟨(c4_empty_root_not_persisted
      [(sproutEmptyRoot, ⟨7, true, true⟩), (5, ⟨8, true, true⟩)] []
      (by decide) (by decide)).1 (.treeV 7),
   (c4_empty_root_not_persisted
      [(sproutEmptyRoot, ⟨7, true, true⟩), (5, ⟨8, true, true⟩)] []
      (by decide) (by decide)).2.2.1 [] 99⟩

/-! ## Claim C5 -/

theorem BatchWriteNullifiers_opKey_length (dbChar : Nat) (m : CNullifiersMap) :
    ∀ op ∈ (BatchWriteNullifiers dbChar m).1, (opKey op).length = 33 := by
  induction m with
  | nil => intro op h; cases h
  | cons p rest ih =>
      obtain ⟨nf, e⟩ := p
      intro op h
      rw [BatchWriteNullifiers] at h
      rcases List.mem_append.mp h with hh | ht
      · by_cases hd : e.dirty
        · rw [if_pos hd] at hh
          have := List.mem_singleton.mp hh
          subst this
          by_cases hent : e.entered <;>
            simp [hent, opKey, ser256_length]
        · rw [if_neg hd] at hh; cases hh
      · exact ih op ht

theorem BatchWriteAnchors_opKey_length (dbChar emptyRoot : Nat) (m : CAnchorsMap) :
    ∀ op ∈ (BatchWriteAnchors dbChar emptyRoot m).1, (opKey op).length = 33 := by
  induction m with
  | nil => intro op h; cases h
  | cons p rest ih =>
      obtain ⟨rt, e⟩ := p
      intro op h
      rw [BatchWriteAnchors] at h
      rcases List.mem_append.mp h with hh | ht
      · by_cases hd : e.dirty
        · rw [if_pos hd] at hh
          by_cases hent : e.entered
          · rw [if_neg (by simp [hent])] at hh
            by_cases hne : rt = emptyRoot
            · rw [if_neg (by simp [hne])] at hh; cases hh
            · rw [if_pos hne] at hh
              have := List.mem_singleton.mp hh
              subst this
              simp [opKey, ser256_length]
          · rw [if_pos (by simp [hent])] at hh
            have := List.mem_singleton.mp hh
            subst this
            simp [opKey, ser256_length]
        · rw [if_neg hd] at hh; cases hh
      · exact ih op ht

theorem batchWriteCoinsLoop_opKey_length (m : CCoinsMap) :
    ∀ op ∈ (batchWriteCoinsLoop m).1, (opKey op).length = 33 := by
  induction m with
  | nil => intro op h; cases h
  | cons p rest ih =>
      obtain ⟨txid, e⟩ := p
      intro op h
      rw [batchWriteCoinsLoop] at h
      rcases List.mem_append.mp h with hh | ht
      · by_cases hd : e.dirty
        · rw [if_pos hd] at hh
          have := List.mem_singleton.mp hh
          subst this
          by_cases hp : e.coins.isPruned <;>
            simp [hp, opKey, ser256_length]
        · rw [if_neg hd] at hh; cases hh
      · exact ih op ht

theorem flush_mapOps_opKey_length (mc : CCoinsMap) (ma1 ma2 : CAnchorsMap)
    (mn1 mn2 : CNullifiersMap) :
    ∀ op ∈ (batchWriteCoinsLoop mc).1
        ++ (BatchWriteAnchors DB_SPROUT_ANCHOR sproutEmptyRoot ma1).1
        ++ (BatchWriteAnchors DB_SAPLING_ANCHOR saplingEmptyRoot ma2).1
        ++ (BatchWriteNullifiers DB_NULLIFIER mn1).1
        ++ (BatchWriteNullifiers DB_SAPLING_NULLIFIER mn2).1,
      (opKey op).length = 33 := by
  intro op h
  simp only [List.mem_append] at h
  rcases h with (((h | h) | h) | h) | h
  · exact batchWriteCoinsLoop_opKey_length mc op h
  · exact BatchWriteAnchors_opKey_length _ _ ma1 op h
  · exact BatchWriteAnchors_opKey_length _ _ ma2 op h
  · exact BatchWriteNullifiers_opKey_length _ mn1 op h
  · exact BatchWriteNullifiers_opKey_length _ mn2 op h

theorem dbRead_applyBatch_bestSlots (dbx : DBState) (hb hs hz : Nat) :
    (dbRead (applyBatch dbx
        ((if !uint256IsNull hb then [BatchOp.write [DB_BEST_BLOCK] (.hashV hb)] else [])
          ++ (if !uint256IsNull hs then [BatchOp.write [DB_BEST_SPROUT_ANCHOR] (.hashV hs)] else [])
          ++ (if !uint256IsNull hz then [BatchOp.write [DB_BEST_SAPLING_ANCHOR] (.hashV hz)] else [])))
        [DB_BEST_BLOCK]
      = if uint256IsNull hb then dbRead dbx [DB_BEST_BLOCK] else some (.hashV hb)) ∧
    (dbRead (applyBatch dbx
        ((if !uint256IsNull hb then [BatchOp.write [DB_BEST_BLOCK] (.hashV hb)] else [])
          ++ (if !uint256IsNull hs then [BatchOp.write [DB_BEST_SPROUT_ANCHOR] (.hashV hs)] else [])
          ++ (if !uint256IsNull hz then [BatchOp.write [DB_BEST_SAPLING_ANCHOR] (.hashV hz)] else [])))
        [DB_BEST_SPROUT_ANCHOR]
      = if uint256IsNull hs then dbRead dbx [DB_BEST_SPROUT_ANCHOR] else some (.hashV hs)) ∧
    (dbRead (applyBatch dbx
        ((if !uint256IsNull hb then [BatchOp.write [DB_BEST_BLOCK] (.hashV hb)] else [])
          ++ (if !uint256IsNull hs then [BatchOp.write [DB_BEST_SPROUT_ANCHOR] (.hashV hs)] else [])
          ++ (if !uint256IsNull hz then [BatchOp.write [DB_BEST_SAPLING_ANCHOR] (.hashV hz)] else [])))
        [DB_BEST_SAPLING_ANCHOR]
      = if uint256IsNull hz then dbRead dbx [DB_BEST_SAPLING_ANCHOR] else some (.hashV hz)) := by
  by_cases h1 : uint256IsNull hb <;> by_cases h2 : uint256IsNull hs <;>
    by_cases h3 : uint256IsNull hz <;>
    refine ⟨?_, ?_, ?_⟩ <;>
    simp [h1, h2, h3, applyBatch, applyOp, dbRead_dbWrite_self, dbRead_dbWrite_ne,
      DB_BEST_BLOCK, DB_BEST_SPROUT_ANCHOR, DB_BEST_SAPLING_ANCHOR]

/-- Claim C5: a flush called with a null (zero) best-block hash — and likewise
a null best-Sprout-anchor or best-Sapling-anchor hash — puts no write to that
scalar slot into the batch, so applying the batch leaves the previously
persisted slot value unchanged; a non-null value is written and is the slot's
value after the batch is applied. -/
theorem c5_best_slot_updates (db : DBState) (commitOk : Bool) (mc : CCoinsMap)
    (hb hs hz : Nat) (ma1 ma2 : CAnchorsMap) (mn1 mn2 : CNullifiersMap) :
    (hb = 0 →
      (∀ v, BatchOp.write [DB_BEST_BLOCK] v
        ∉ (CCoinsViewDB_BatchWrite db commitOk mc hb hs hz ma1 ma2 mn1 mn2).ops) ∧
      dbRead (applyBatch db
          (CCoinsViewDB_BatchWrite db commitOk mc hb hs hz ma1 ma2 mn1 mn2).ops)
        [DB_BEST_BLOCK] = dbRead db [DB_BEST_BLOCK]) ∧
    (hs = 0 →
      (∀ v, BatchOp.write [DB_BEST_SPROUT_ANCHOR] v
        ∉ (CCoinsViewDB_BatchWrite db commitOk mc hb hs hz ma1 ma2 mn1 mn2).ops) ∧
      dbRead (applyBatch db
          (CCoinsViewDB_BatchWrite db commitOk mc hb hs hz ma1 ma2 mn1 mn2).ops)
        [DB_BEST_SPROUT_ANCHOR] = dbRead db [DB_BEST_SPROUT_ANCHOR]) ∧
    (hz = 0 →
      (∀ v, BatchOp.write [DB_BEST_SAPLING_ANCHOR] v
        ∉ (CCoinsViewDB_BatchWrite db commitOk mc hb hs hz ma1 ma2 mn1 mn2).ops) ∧
      dbRead (applyBatch db
          (CCoinsViewDB_BatchWrite db commitOk mc hb hs hz ma1 ma2 mn1 mn2).ops)
        [DB_BEST_SAPLING_ANCHOR] = dbRead db [DB_BEST_SAPLING_ANCHOR]) ∧
    (hb ≠ 0 →
      dbRead (applyBatch db
          (CCoinsViewDB_BatchWrite db commitOk mc hb hs hz ma1 ma2 mn1 mn2).ops)
        [DB_BEST_BLOCK] = some (.hashV hb)) ∧
    (hs ≠ 0 →
      dbRead (applyBatch db
          (CCoinsViewDB_BatchWrite db commitOk mc hb hs hz ma1 ma2 mn1 mn2).ops)
        [DB_BEST_SPROUT_ANCHOR] = some (.hashV hs)) ∧
    (hz ≠ 0 →
      dbRead (applyBatch db
          (CCoinsViewDB_BatchWrite db commitOk mc hb hs hz ma1 ma2 mn1 mn2).ops)
        [DB_BEST_SAPLING_ANCHOR] = some (.hashV hz)) := by
  have hlen := flush_mapOps_opKey_length mc ma1 ma2 mn1 mn2
  have hops : (CCoinsViewDB_BatchWrite db commitOk mc hb hs hz ma1 ma2 mn1 mn2).ops
      = ((batchWriteCoinsLoop mc).1
          ++ (BatchWriteAnchors DB_SPROUT_ANCHOR sproutEmptyRoot ma1).1
          ++ (BatchWriteAnchors DB_SAPLING_ANCHOR saplingEmptyRoot ma2).1
          ++ (BatchWriteNullifiers DB_NULLIFIER mn1).1
          ++ (BatchWriteNullifiers DB_SAPLING_NULLIFIER mn2).1)
        ++ ((if !uint256IsNull hb then [BatchOp.write [DB_BEST_BLOCK] (.hashV hb)] else [])
          ++ (if !uint256IsNull hs then [BatchOp.write [DB_BEST_SPROUT_ANCHOR] (.hashV hs)] else [])
          ++ (if !uint256IsNull hz then [BatchOp.write [DB_BEST_SAPLING_ANCHOR] (.hashV hz)] else [])) := rfl
  have hpre : ∀ q : List Nat, q.length = 1 →
      dbRead (applyBatch db ((batchWriteCoinsLoop mc).1
          ++ (BatchWriteAnchors DB_SPROUT_ANCHOR sproutEmptyRoot ma1).1
          ++ (BatchWriteAnchors DB_SAPLING_ANCHOR saplingEmptyRoot ma2).1
          ++ (BatchWriteNullifiers DB_NULLIFIER mn1).1
          ++ (BatchWriteNullifiers DB_SAPLING_NULLIFIER mn2).1)) q = dbRead db q := by
    intro q hq
    refine dbRead_applyBatch_untouched _ db q fun op hop hk => ?_
    have := hlen op hop
    rw [hk, hq] at this
    exact absurd this (by norm_num)
  have hbest := dbRead_applyBatch_bestSlots
    (applyBatch db ((batchWriteCoinsLoop mc).1
      ++ (BatchWriteAnchors DB_SPROUT_ANCHOR sproutEmptyRoot ma1).1
      ++ (BatchWriteAnchors DB_SAPLING_ANCHOR saplingEmptyRoot ma2).1
      ++ (BatchWriteNullifiers DB_NULLIFIER mn1).1
      ++ (BatchWriteNullifiers DB_SAPLING_NULLIFIER mn2).1)) hb hs hz
  rw [hops]
  have hnotmem : ∀ (t : Nat) (v : DBValue),
      BatchOp.write [t] v ∉ ((batchWriteCoinsLoop mc).1
        ++ (BatchWriteAnchors DB_SPROUT_ANCHOR sproutEmptyRoot ma1).1
        ++ (BatchWriteAnchors DB_SAPLING_ANCHOR saplingEmptyRoot ma2).1
        ++ (BatchWriteNullifiers DB_NULLIFIER mn1).1
        ++ (BatchWriteNullifiers DB_SAPLING_NULLIFIER mn2).1) := by
    intro t v hmem
    have := hlen _ hmem
    simp [opKey] at this
  refine ⟨fun h0 => ⟨fun v hmem => ?_, ?_⟩, fun h0 => ⟨fun v hmem => ?_, ?_⟩,
    fun h0 => ⟨fun v hmem => ?_, ?_⟩, fun h0 => ?_, fun h0 => ?_, fun h0 => ?_⟩
  · rcases List.mem_append.mp hmem with hm | hm
    · exact hnotmem _ v hm
    · revert hm
      by_cases h2 : uint256IsNull hs <;> by_cases h3 : uint256IsNull hz <;>
        simp [h0, uint256IsNull, h2, h3, DB_BEST_BLOCK, DB_BEST_SPROUT_ANCHOR,
          DB_BEST_SAPLING_ANCHOR]
  · rw [applyBatch_append, hbest.1, if_pos (by simp [uint256IsNull, h0]),
      hpre [DB_BEST_BLOCK] rfl]
  · rcases List.mem_append.mp hmem with hm | hm
    · exact hnotmem _ v hm
    · revert hm
      by_cases h1 : uint256IsNull hb <;> by_cases h3 : uint256IsNull hz <;>
        simp [h0, uint256IsNull, h1, h3, DB_BEST_BLOCK, DB_BEST_SPROUT_ANCHOR,
          DB_BEST_SAPLING_ANCHOR]
  · rw [applyBatch_append, hbest.2.1, if_pos (by simp [uint256IsNull, h0]),
      hpre [DB_BEST_SPROUT_ANCHOR] rfl]
  · rcases List.mem_append.mp hmem with hm | hm
    · exact hnotmem _ v hm
    · revert hm
      by_cases h1 : uint256IsNull hb <;> by_cases h2 : uint256IsNull hs <;>
        simp [h0, uint256IsNull, h1, h2, DB_BEST_BLOCK, DB_BEST_SPROUT_ANCHOR,
          DB_BEST_SAPLING_ANCHOR]
  · rw [applyBatch_append, hbest.2.2, if_pos (by simp [uint256IsNull, h0]),
      hpre [DB_BEST_SAPLING_ANCHOR] rfl]
  · rw [applyBatch_append, hbest.1, if_neg (by simp [uint256IsNull, h0])]
  · rw [applyBatch_append, hbest.2.1, if_neg (by simp [uint256IsNull, h0])]
  · rw [applyBatch_append, hbest.2.2, if_neg (by simp [uint256IsNull, h0])]

/-- Witness for C5: the theorem applied at a concrete flush with a null
best-block hash, a non-null best-Sprout-anchor hash and a non-null
best-Sapling-anchor hash over a store that already holds a best block. -/
theorem c5_witness :
    dbRead (applyBatch [([DB_BEST_BLOCK], DBValue.hashV 77)]
        (CCoinsViewDB_BatchWrite [([DB_BEST_BLOCK], DBValue.hashV 77)] true []
          0 11 12 [] [] [] []).ops) [DB_BEST_BLOCK]
      = dbRead [([DB_BEST_BLOCK], DBValue.hashV 77)] [DB_BEST_BLOCK] ∧
    dbRead (applyBatch [([DB_BEST_BLOCK], DBValue.hashV 77)]
        (CCoinsViewDB_BatchWrite [([DB_BEST_BLOCK], DBValue.hashV 77)] true []
          0 11 12 [] [] [] []).ops) [DB_BEST_SPROUT_ANCHOR] = some (.hashV 11) :=
  ⟨((c5_best_slot_updates [([DB_BEST_BLOCK], DBValue.hashV 77)] true [] 0 11 12
      [] [] [] []).1 rfl).2,
   (c5_best_slot_updates [([DB_BEST_BLOCK], DBValue.hashV 77)] true [] 0 11 12
      [] [] [] []).2.2.2.2.1 (by decide)⟩

/-! ## Index range scans (txdb.cpp lines 330-370, 386-435, 583-620)

Each scan is embedded as a function over the list of raw `(key bytes, value
bytes)` entries the LevelDB iterator yields from the seek position onward, in
iteration order.  Decoding a key or value out of a `CDataStream` throws when
too few bytes remain; that is modelled by readers returning `none` on short
input, and the loops reproduce the source's control flow: a key-decode
failure breaks out of the loop (the enclosing `try` catches and `break`s),
a value-decode failure returns `error(...)` = false. -/

/-- Two's-complement read of an `int64` from 8 little-endian bytes. -/
def deserInt64 (bs : List Nat) : Int :=
  let n := deserLE (bs.take 8)
  if n < 2 ^ 63 then (n : Int) else (n : Int) - 2 ^ 64

/-- `ssKey >> chType; ssKey >> indexKey` for an address-unspent scan key:
needs the tag byte plus the 57-byte payload. -/
def readAddressUnspentScanKey (bs : List Nat) : Option (Nat × CAddressUnspentKey) :=
  if 58 ≤ bs.length then some (bs.headD 0, parseAddressUnspentKey (bs.drop 1))
  else none

/-- `ssKey >> chType; ssKey >> indexKey` for an address-history scan key:
needs the tag byte plus the 61-byte payload. -/
def readAddressIndexScanKey (bs : List Nat) : Option (Nat × CAddressIndexKey) :=
  if 62 ≤ bs.length then some (bs.headD 0, parseAddressIndexKey (bs.drop 1))
  else none

/-- `ssKey >> chType; ssKey >> indexKey` for a timestamp scan key: tag byte,
big-endian timestamp, block hash. -/
def readTimestampScanKey (bs : List Nat) : Option (Nat × Nat × Nat) :=
  if 37 ≤ bs.length then
    let r1 := bs.drop 1
    some (bs.headD 0, deserBE (r1.take 4), deserLE ((r1.drop 4).take 32))
  else none

/-- Modelled from the spec: address-unspent index value (amount, height). -/
structure CAddressUnspentValue where
  satoshis : Int
  blockHeight : Nat
deriving DecidableEq

/-- `ssValue >> nValue` for an address-unspent value. -/
def readAddressUnspentValue (bs : List Nat) : Option CAddressUnspentValue :=
  if 12 ≤ bs.length then
    some ⟨deserInt64 (bs.take 8), deserLE ((bs.drop 8).take 4)⟩
  else none

/-- `ssValue >> nValue` for an address-history value (a `CAmount`). -/
def readAmountValue (bs : List Nat) : Option Int :=
  if 8 ≤ bs.length then some (deserInt64 (bs.take 8)) else none

/-- `CBlockTreeDB::ReadAddressUnspentIndex` (txdb.cpp lines 330-370), the
iteration loop over the post-seek entries: continue while the key decodes
with the address-unspent tag and the requested address hash; a key-decode
failure breaks (returning success with the partial result); a value-decode
failure returns failure. -/
def ReadAddressUnspentIndex (addressHash : Nat) :
    List (List Nat × List Nat) → Bool × List (CAddressUnspentKey × CAddressUnspentValue)
  | [] => (true, [])
  | (rk, rv) :: rest =>
      match readAddressUnspentScanKey rk with
      | none => (true, [])
      | some (chType, indexKey) =>
          if chType = DB_ADDRESSUNSPENTINDEX ∧ indexKey.hashBytes = addressHash then
            match readAddressUnspentValue rv with
            | none => (false, [])
            | some v =>
                let t := ReadAddressUnspentIndex addressHash rest
                (t.1, (indexKey, v) :: t.2)
          else (true, [])

/-- `CBlockTreeDB::ReadAddressIndex` (txdb.cpp lines 386-435), the iteration
loop over the post-seek entries: continue while the key decodes with the
address-index tag and the requested address hash; stop when a positive upper
height bound `endH` is exceeded; a key-decode failure breaks (success with
partial result); a value-decode failure returns failure. -/
def ReadAddressIndex (addressHash : Nat) (endH : Int) :
    List (List Nat × List Nat) → Bool × List (CAddressIndexKey × Int)
  | [] => (true, [])
  | (rk, rv) :: rest =>
      match readAddressIndexScanKey rk with
      | none => (true, [])
      | some (chType, indexKey) =>
          if chType = DB_ADDRESSINDEX ∧ indexKey.hashBytes = addressHash then
            if 0 < endH ∧ (indexKey.blockHeight : Int) > endH then (true, [])
            else
              match readAmountValue rv with
              | none => (false, [])
              | some nValue =>
                  let t := ReadAddressIndex addressHash endH rest
                  (t.1, (indexKey, nValue) :: t.2)
          else (true, [])

/-- `CBlockTreeDB::ReadTimestampIndex` (txdb.cpp lines 583-620), the
iteration loop over the post-seek entries: continue while the key decodes
with the timestamp tag and a timestamp below `high`; the active-chain filter
is taken as a predicate parameter (the source consults the externally owned
`chainActive` through `blockOnchainActive`); a key-decode failure breaks
(success with partial result).  The stored value is never decoded. -/
def ReadTimestampIndex (high : Nat) (fActiveOnly : Bool) (activeChain : Nat → Bool) :
    List (List Nat × List Nat) → Bool × List (Nat × Nat)
  | [] => (true, [])
  | (rk, _) :: rest =>
      match readTimestampScanKey rk with
      | none => (true, [])
      | some (chType, ts, blockHash) =>
          if chType = DB_TIMESTAMPINDEX ∧ ts < high then
            let t := ReadTimestampIndex high fActiveOnly activeChain rest
            (t.1,
              (if fActiveOnly then
                  (if activeChain blockHash then [(blockHash, ts)] else [])
                else [(blockHash, ts)]) ++ t.2)
          else (true, [])

/-- A raw entry the address-unspent scan fully consumes: key decodes with the
right tag and hash, and the value decodes. -/
def auEntryOk (addressHash : Nat) (e : List Nat × List Nat) : Bool :=
  match readAddressUnspentScanKey e.1 with
  | some (chType, ik) =>
      decide (chType = DB_ADDRESSUNSPENTINDEX) && decide (ik.hashBytes = addressHash)
        && (readAddressUnspentValue e.2).isSome
  | none => false

/-- A raw entry the address-history scan fully consumes: key decodes with
the right tag and hash, the height bound does not cut it off, and the value
decodes. -/
def aiEntryOk (addressHash : Nat) (endH : Int) (e : List Nat × List Nat) : Bool :=
  match readAddressIndexScanKey e.1 with
  | some (chType, ik) =>
      decide (chType = DB_ADDRESSINDEX) && decide (ik.hashBytes = addressHash)
        && !(decide (0 < endH ∧ (ik.blockHeight : Int) > endH))
        && (readAmountValue e.2).isSome
  | none => false

/-- A raw entry the timestamp scan fully consumes: key decodes with the right
tag and a timestamp below the upper bound. -/
def tsEntryOk (high : Nat) (e : List Nat × List Nat) : Bool :=
  match readTimestampScanKey e.1 with
  | some (chType, ts, _) => decide (chType = DB_TIMESTAMPINDEX) && decide (ts < high)
  | none => false

theorem ReadAddressUnspentIndex_append (A : Nat)
    (pre l : List (List Nat × List Nat)) (h : ∀ x ∈ pre, auEntryOk A x = true) :
    ReadAddressUnspentIndex A (pre ++ l)
      = ((ReadAddressUnspentIndex A l).1,
         (ReadAddressUnspentIndex A pre).2 ++ (ReadAddressUnspentIndex A l).2) := by
  induction pre with
  | nil => simp [ReadAddressUnspentIndex]
  | cons p rest ih =>
      obtain ⟨rk, rv⟩ := p
      have hok := h (rk, rv) (List.mem_cons_self _ _)
      simp only [auEntryOk] at hok
      cases hk : readAddressUnspentScanKey rk with
      | none => rw [hk] at hok; simp at hok
      | some pr =>
          obtain ⟨ct, ik⟩ := pr
          rw [hk] at hok
          simp only [Bool.and_eq_true, decide_eq_true_eq,
            Option.isSome_iff_exists] at hok
          obtain ⟨⟨hct, hhash⟩, v, hv⟩ := hok
          have ih' := ih fun x hx => h x (List.mem_cons_of_mem _ hx)
          rw [List.cons_append, ReadAddressUnspentIndex, ReadAddressUnspentIndex,
            hk]
          simp only [if_pos (And.intro hct hhash), hv, ih']
          rfl

theorem ReadAddressIndex_append (A : Nat) (endH : Int)
    (pre l : List (List Nat × List Nat))
    (h : ∀ x ∈ pre, aiEntryOk A endH x = true) :
    ReadAddressIndex A endH (pre ++ l)
      = ((ReadAddressIndex A endH l).1,
         (ReadAddressIndex A endH pre).2 ++ (ReadAddressIndex A endH l).2) := by
  induction pre with
  | nil => simp [ReadAddressIndex]
  | cons p rest ih =>
      obtain ⟨rk, rv⟩ := p
      have hok := h (rk, rv) (List.mem_cons_self _ _)
      simp only [aiEntryOk] at hok
      cases hk : readAddressIndexScanKey rk with
      | none => rw [hk] at hok; simp at hok
      | some pr =>
          obtain ⟨ct, ik⟩ := pr
          rw [hk] at hok
          simp only [Bool.and_eq_true, Bool.not_eq_true', decide_eq_true_eq,
            decide_eq_false_iff_not, Option.isSome_iff_exists] at hok
          obtain ⟨⟨⟨hct, hhash⟩, hbound⟩, v, hv⟩ := hok
          have ih' := ih fun x hx => h x (List.mem_cons_of_mem _ hx)
          rw [List.cons_append, ReadAddressIndex, ReadAddressIndex, hk]
          simp only [if_pos (And.intro hct hhash), if_neg hbound, hv, ih']
          rfl

theorem ReadTimestampIndex_append (high : Nat) (fActiveOnly : Bool)
    (activeChain : Nat → Bool) (pre l : List (List Nat × List Nat))
    (h : ∀ x ∈ pre, tsEntryOk high x = true) :
    ReadTimestampIndex high fActiveOnly activeChain (pre ++ l)
      = ((ReadTimestampIndex high fActiveOnly activeChain l).1,
         (ReadTimestampIndex high fActiveOnly activeChain pre).2
           ++ (ReadTimestampIndex high fActiveOnly activeChain l).2) := by
  induction pre with
  | nil => simp [ReadTimestampIndex]
  | cons p rest ih =>
      obtain ⟨rk, rv⟩ := p
      have hok := h (rk, rv) (List.mem_cons_self _ _)
      simp only [tsEntryOk] at hok
      cases hk : readTimestampScanKey rk with
      | none => rw [hk] at hok; simp at hok
      | some pr =>
          obtain ⟨ct, ts, bh⟩ := pr
          rw [hk] at hok
          simp only [Bool.and_eq_true, decide_eq_true_eq] at hok
          obtain ⟨hct, hts⟩ := hok
          have ih' := ih fun x hx => h x (List.mem_cons_of_mem _ hx)
          rw [List.cons_append, ReadTimestampIndex, ReadTimestampIndex, hk]
          simp only [if_pos (And.intro hct hts), ih']
          simp [List.append_assoc]

/-! ## Claim C6 -/

/-- Claim C6 (amended): during an index range scan, a decode failure on the
current KEY terminates the scan early exactly as if the end of the index had
been reached — the scan returns success together with the partial result
accumulated so far; a decode failure on the current VALUE also terminates the
scan at the bad entry (nothing beyond it is examined, the bad entry is not
skipped) but returns failure, with the partial result accumulated so far left
in the output vector.  (The timestamp scan never decodes values, so only the
key case applies to it.) -/
theorem c6_decode_failure_stops_scan :
    (∀ (A : Nat) (pre rest : List (List Nat × List Nat)) (e : List Nat × List Nat),
        (∀ x ∈ pre, auEntryOk A x = true) → readAddressUnspentScanKey e.1 = none →
        ReadAddressUnspentIndex A (pre ++ e :: rest)
          = (true, (ReadAddressUnspentIndex A pre).2)) ∧
    (∀ (A : Nat) (pre rest : List (List Nat × List Nat)) (e : List Nat × List Nat)
        (ik : CAddressUnspentKey),
        (∀ x ∈ pre, auEntryOk A x = true) →
        readAddressUnspentScanKey e.1 = some (DB_ADDRESSUNSPENTINDEX, ik) →
        ik.hashBytes = A → readAddressUnspentValue e.2 = none →
        ReadAddressUnspentIndex A (pre ++ e :: rest)
          = (false, (ReadAddressUnspentIndex A pre).2)) ∧
    (∀ (A : Nat) (endH : Int) (pre rest : List (List Nat × List Nat))
        (e : List Nat × List Nat),
        (∀ x ∈ pre, aiEntryOk A endH x = true) → readAddressIndexScanKey e.1 = none →
        ReadAddressIndex A endH (pre ++ e :: rest)
          = (true, (ReadAddressIndex A endH pre).2)) ∧
    (∀ (A : Nat) (endH : Int) (pre rest : List (List Nat × List Nat))
        (e : List Nat × List Nat) (ik : CAddressIndexKey),
        (∀ x ∈ pre, aiEntryOk A endH x = true) →
        readAddressIndexScanKey e.1 = some (DB_ADDRESSINDEX, ik) →
        ik.hashBytes = A → ¬(0 < endH ∧ (ik.blockHeight : Int) > endH) →
        readAmountValue e.2 = none →
        ReadAddressIndex A endH (pre ++ e :: rest)
          = (false, (ReadAddressIndex A endH pre).2)) ∧
    (∀ (high : Nat) (fActiveOnly : Bool) (activeChain : Nat → Bool)
        (pre rest : List (List Nat × List Nat)) (e : List Nat × List Nat),
        (∀ x ∈ pre, tsEntryOk high x = true) → readTimestampScanKey e.1 = none →
        ReadTimestampIndex high fActiveOnly activeChain (pre ++ e :: rest)
          = (true, (ReadTimestampIndex high fActiveOnly activeChain pre).2)) := by
  refine ⟨fun A pre rest e hpre hk => ?_, fun A pre rest e ik hpre hk hh hv => ?_,
    fun A endH pre rest e hpre hk => ?_,
    fun A endH pre rest e ik hpre hk hh hb hv => ?_,
    fun high fao act pre rest e hpre hk => ?_⟩
  · obtain ⟨rk, rv⟩ := e
    rw [ReadAddressUnspentIndex_append A pre (( rk, rv) :: rest) hpre,
      ReadAddressUnspentIndex, hk]
    simp
  · obtain ⟨rk, rv⟩ := e
    rw [ReadAddressUnspentIndex_append A pre ((rk, rv) :: rest) hpre,
      ReadAddressUnspentIndex, hk]
    simp [hh, hv]
  · obtain ⟨rk, rv⟩ := e
    rw [ReadAddressIndex_append A endH pre ((rk, rv) :: rest) hpre,
      ReadAddressIndex, hk]
    simp
  · obtain ⟨rk, rv⟩ := e
    rw [ReadAddressIndex_append A endH pre ((rk, rv) :: rest) hpre,
      ReadAddressIndex, hk]
    simp [hh, hb, hv]
  · obtain ⟨rk, rv⟩ := e
    rw [ReadTimestampIndex_append high fao act pre ((rk, rv) :: rest) hpre,
      ReadTimestampIndex, hk]
    simp

/-- Witness for C6: the theorem applied at a concrete prefix of one good
entry followed by one key-undecodable entry, and at a concrete value-decode
failure. -/
theorem c6_witness :
    ReadAddressUnspentIndex 5
        [(DB_ADDRESSUNSPENTINDEX :: serAddressUnspentKey ⟨1, 5, 9, 0⟩,
            serLE 8 100 ++ serLE 4 3), ([], [])]
      = (true, (ReadAddressUnspentIndex 5
          [(DB_ADDRESSUNSPENTINDEX :: serAddressUnspentKey ⟨1, 5, 9, 0⟩,
              serLE 8 100 ++ serLE 4 3)]).2) ∧
    ReadAddressIndex 5 0 [(DB_ADDRESSINDEX :: serAddressIndexKey ⟨1, 5, 30, 9, 0⟩, [])]
      = (false, []) :=
  ⟨c6_decode_failure_stops_scan.1 5
      [(DB_ADDRESSUNSPENTINDEX :: serAddressUnspentKey ⟨1, 5, 9, 0⟩,
          serLE 8 100 ++ serLE 4 3)] [] ([], [])
      (by decide) rfl,
   c6_decode_failure_stops_scan.2.2.2.1 5 0 [] []
      (DB_ADDRESSINDEX :: serAddressIndexKey ⟨1, 5, 30, 9, 0⟩, [])
      ⟨1, 5, 30, 9, 0⟩ (by simp) (by decide) rfl (by decide) rfl⟩

/-- Counterexample for C6 as stated: a VALUE-decode failure is not treated as
reaching the end of the index — the scan returns failure (`error(...)` =
false at txdb.cpp line 359 / 424), not the success an end-of-index exit
produces. -/
theorem c6_counterexample :
    ReadAddressUnspentIndex 5
        [(DB_ADDRESSUNSPENTINDEX :: serAddressUnspentKey ⟨1, 5, 9, 0⟩, [])]
      = (false, []) ∧
    readAddressUnspentScanKey (DB_ADDRESSUNSPENTINDEX :: serAddressUnspentKey ⟨1, 5, 9, 0⟩)
      = some (DB_ADDRESSUNSPENTINDEX, ⟨1, 5, 9, 0⟩) ∧
    readAddressUnspentValue [] = none := by
  refine ⟨by decide, by decide, rfl⟩

/-! ## Claim C7 -/

/-- Claim C7: the address-history scan returns only entries whose key decoded
with the address-index type tag and the requested address hash, and when a
positive upper height bound is supplied no returned entry has a height above
the bound; moreover the scan stops at the first key whose tag or address hash
differs (or whose height exceeds a positive bound) — the entries beyond such
a key are never examined. -/
theorem c7_address_scan_bounds :
    (∀ (A : Nat) (endH : Int) (entries : List (List Nat × List Nat))
        (p : CAddressIndexKey × Int),
        p ∈ (ReadAddressIndex A endH entries).2 →
        p.1.hashBytes = A ∧ (0 < endH → (p.1.blockHeight : Int) ≤ endH) ∧
        ∃ e ∈ entries, readAddressIndexScanKey e.1 = some (DB_ADDRESSINDEX, p.1)) ∧
    (∀ (A : Nat) (endH : Int) (l1 l2 : List (List Nat × List Nat))
        (e : List Nat × List Nat) (ct : Nat) (ik : CAddressIndexKey),
        readAddressIndexScanKey e.1 = some (ct, ik) →
        (¬(ct = DB_ADDRESSINDEX ∧ ik.hashBytes = A) ∨
          (0 < endH ∧ (ik.blockHeight : Int) > endH)) →
        ReadAddressIndex A endH (l1 ++ e :: l2) = ReadAddressIndex A endH (l1 ++ [e])) := by
  constructor
  · intro A endH entries
    induction entries with
    | nil => intro p hp; cases hp
    | cons q rest ih =>
        obtain ⟨rk, rv⟩ := q
        intro p hp
        rw [ReadAddressIndex] at hp
        cases hk : readAddressIndexScanKey rk with
        | none => simp only [hk] at hp; cases hp
        | some pr =>
            obtain ⟨ct, ik⟩ := pr
            simp only [hk] at hp
            by_cases hc : ct = DB_ADDRESSINDEX ∧ ik.hashBytes = A
            · rw [if_pos hc] at hp
              by_cases hb : 0 < endH ∧ (ik.blockHeight : Int) > endH
              · rw [if_pos hb] at hp; cases hp
              · rw [if_neg hb] at hp
                cases hv : readAmountValue rv with
                | none => simp only [hv] at hp; cases hp
                | some v =>
                    simp only [hv] at hp
                    rcases List.mem_cons.mp hp with heq | hmem
                    · subst heq
                      refine ⟨hc.2, fun hpos => ?_, (rk, rv),
                        List.mem_cons_self _ _, by rw [hk, hc.1]⟩
                      simp only
                      by_contra hgt
                      exact hb ⟨hpos, by omega⟩
                    · obtain ⟨g1, g2, e', he', g3⟩ := ih p hmem
                      exact ⟨g1, g2, e', List.mem_cons_of_mem _ he', g3⟩
            · rw [if_neg hc] at hp; cases hp
  · intro A endH l1 l2 e ct ik hk hstop
    induction l1 with
    | nil =>
        obtain ⟨rk, rv⟩ := e
        simp only at hk
        rw [List.nil_append, List.nil_append, ReadAddressIndex, ReadAddressIndex]
        simp only [hk]
        rcases hstop with hmis | hcut
        · rw [if_neg hmis, if_neg hmis]
        · by_cases hc : ct = DB_ADDRESSINDEX ∧ ik.hashBytes = A
          · rw [if_pos hc, if_pos hc, if_pos hcut, if_pos hcut]
          · rw [if_neg hc, if_neg hc]
    | cons q rest ih =>
        obtain ⟨rk', rv'⟩ := q
        rw [List.cons_append, List.cons_append, ReadAddressIndex, ReadAddressIndex]
        cases hk' : readAddressIndexScanKey rk' with
        | none => simp only [hk']
        | some pr =>
            obtain ⟨ct', ik'⟩ := pr
            simp only [hk']
            by_cases hc' : ct' = DB_ADDRESSINDEX ∧ ik'.hashBytes = A
            · rw [if_pos hc', if_pos hc']
              by_cases hb' : 0 < endH ∧ (ik'.blockHeight : Int) > endH
              · rw [if_pos hb', if_pos hb']
              · rw [if_neg hb', if_neg hb']
                cases hv' : readAmountValue rv' with
                | none => simp only [hv']
                | some v' => simp only [hv', ih]
            · rw [if_neg hc', if_neg hc']

/-- Witness for C7: the scan theorem applied at a concrete store slice with a
matching entry, a bound, and a mismatching stopper entry. -/
theorem c7_witness :
    ((⟨1, 5, 30, 9, 0⟩ : CAddressIndexKey).hashBytes = 5 ∧
      (0 < (50 : Int) → ((⟨1, 5, 30, 9, 0⟩ : CAddressIndexKey).blockHeight : Int) ≤ 50) ∧
      ∃ e ∈ [(DB_ADDRESSINDEX :: serAddressIndexKey ⟨1, 5, 30, 9, 0⟩, serLE 8 100)],
        readAddressIndexScanKey e.1
          = some (DB_ADDRESSINDEX, (⟨1, 5, 30, 9, 0⟩ : CAddressIndexKey))) ∧
    ReadAddressIndex 5 50
        ([] ++ (DB_ADDRESSINDEX :: serAddressIndexKey ⟨1, 7, 30, 9, 0⟩, []) ::
          [(DB_ADDRESSINDEX :: serAddressIndexKey ⟨1, 5, 30, 9, 0⟩, serLE 8 100)])
      = ReadAddressIndex 5 50
          ([] ++ [(DB_ADDRESSINDEX :: serAddressIndexKey ⟨1, 7, 30, 9, 0⟩, [])]) :=
  ⟨c7_address_scan_bounds.1 5 50
      [(DB_ADDRESSINDEX :: serAddressIndexKey ⟨1, 5, 30, 9, 0⟩, serLE 8 100)]
      (⟨1, 5, 30, 9, 0⟩, 100) (by decide),
   c7_address_scan_bounds.2 5 50 []
      [(DB_ADDRESSINDEX :: serAddressIndexKey ⟨1, 5, 30, 9, 0⟩, serLE 8 100)]
      (DB_ADDRESSINDEX :: serAddressIndexKey ⟨1, 7, 30, 9, 0⟩, [])
      DB_ADDRESSINDEX ⟨1, 7, 30, 9, 0⟩ (by decide) (Or.inl (by decide))⟩

/-! ## Claim C8: the statistics scan (CCoinsViewDB::GetStats,
txdb.cpp lines 225-269)

The hashing of the scan is embedded as the byte stream fed to the
`CHashWriter` accumulator `ss`: the final summary hash is the (external)
cryptographic hash of that stream, so two runs produce the same summary hash
exactly when they feed the same stream. -/

/-- The continuation-bit leading bytes of Bitcoin's `VARINT` encoding. -/
def serVARINTlead (m : Nat) : List Nat :=
  if h : m ≤ 127 then [m + 128]
  else serVARINTlead (m / 128 - 1) ++ [m % 128 + 128]
decreasing_by omega

/-- Bitcoin's `VARINT` serialization (base-128 with continuation bits, most
significant group first, groups after the first offset by one). -/
def serVARINT (n : Nat) : List Nat :=
  if n ≤ 127 then [n] else serVARINTlead (n / 128 - 1) ++ [n % 128]

/-- `CTxOut` serialization: 8-byte little-endian two's-complement value
followed by the length-prefixed script. -/
def serInt64 (v : Int) : List Nat := serLE 8 (v % (2 ^ 64 : Int)).toNat

/-- Serialized form of a transaction output (`ss << out`). -/
def serTxOut (o : CTxOut) : List Nat :=
  serInt64 o.nValue ++ o.scriptPubKey.length :: o.scriptPubKey

/-- The bytes the per-record output loop of `GetStats` feeds to the hash
accumulator: for each output at position `i` (0-based, the loop counter),
a null output contributes nothing, a non-null output contributes
`VARINT(i+1)` followed by its serialization. -/
def statsOutsStream : Nat → List CTxOut → List Nat
  | _, [] => []
  | i, out :: rest =>
      (if out.isNull then [] else serVARINT (i + 1) ++ serTxOut out)
        ++ statsOutsStream (i + 1) rest

/-- The bytes one coin record feeds to the accumulator: its non-null outputs
with their 1-based indices, terminated by `VARINT(0)`. -/
def statsRecordStream (c : CCoins) : List Nat :=
  statsOutsStream 0 c.vout ++ serVARINT 0

/-- The full stream `GetStats` hashes: the best-block hash first, then each
coin record in iteration order. -/
def GetStatsStream (bestBlockHash : Nat) (records : List CCoins) : List Nat :=
  ser256 bestBlockHash ++ (records.map statsRecordStream).flatten

/-- The output count `GetStats` accumulates (`stats.nTransactionOutputs`):
null outputs are not counted. -/
def statsOutputCount (c : CCoins) : Nat :=
  (c.vout.filter fun o => !o.isNull).length

/-- The total amount `GetStats` accumulates (`nTotalAmount`): null outputs
contribute nothing. -/
def statsTotalAmount (c : CCoins) : Int :=
  ((c.vout.filter fun o => !o.isNull).map CTxOut.nValue).sum

def GetStatsOutputCount (records : List CCoins) : Nat :=
  (records.map statsOutputCount).sum

def GetStatsTotalAmount (records : List CCoins) : Int :=
  (records.map statsTotalAmount).sum

/-- The non-null outputs of a record paired with their 0-based positions. -/
def indexedNonNull : Nat → List CTxOut → List (Nat × CTxOut)
  | _, [] => []
  | i, out :: rest =>
      (if out.isNull then [] else [(i, out)]) ++ indexedNonNull (i + 1) rest

/-- The plain non-null outputs of a coin set, positions forgotten. -/
def nonNullOuts (records : List CCoins) : List CTxOut :=
  (records.map fun c => c.vout.filter fun o => !o.isNull).flatten

theorem statsOutsStream_eq_indexed (v : List CTxOut) : ∀ i : Nat,
    statsOutsStream i v
      = ((indexedNonNull i v).map fun p => serVARINT (p.1 + 1) ++ serTxOut p.2).flatten := by
  induction v with
  | nil => intro i; rfl
  | cons out rest ih =>
      intro i
      rw [statsOutsStream, indexedNonNull]
      by_cases hn : out.isNull <;>
        simp [hn, ih (i + 1)]

theorem indexedNonNull_length (v : List CTxOut) : ∀ i : Nat,
    (indexedNonNull i v).length = (v.filter fun o => !o.isNull).length := by
  induction v with
  | nil => intro i; rfl
  | cons out rest ih =>
      intro i
      rw [indexedNonNull]
      by_cases hn : out.isNull <;> simp [hn, ih (i + 1), List.filter]

theorem indexedNonNull_values (v : List CTxOut) : ∀ i : Nat,
    ((indexedNonNull i v).map fun p => p.2.nValue).sum
      = ((v.filter fun o => !o.isNull).map CTxOut.nValue).sum := by
  induction v with
  | nil => intro i; rfl
  | cons out rest ih =>
      intro i
      rw [indexedNonNull]
      by_cases hn : out.isNull <;> simp [hn, ih (i + 1), List.filter]

/-- Claim C8 (amended): the statistics scan hashes the best-block hash first,
then for each coin record each non-null output preceded by its 1-based index
as a varint, with each record terminated by varint 0; null outputs are
excluded from the count, the hash and the total value.  The summary stream
(hence the summary hash), the output count and the total amount are
determined by the best-block hash together with the per-record sequences of
(position, output) pairs of the NON-NULL outputs — so two coin sets agreeing
on those yield the same summary hash.  (Agreement on the plain multiset of
non-null outputs is not enough: positions shifted by null outputs change the
stream; see the counterexample.) -/
theorem c8_stats_hash_determinism (b1 b2 : Nat) (r1 r2 : List CCoins)
    (hb : b1 = b2)
    (hc : (r1.map fun c => indexedNonNull 0 c.vout)
        = (r2.map fun c => indexedNonNull 0 c.vout)) :
    GetStatsStream b1 r1 = GetStatsStream b2 r2 ∧
    GetStatsOutputCount r1 = GetStatsOutputCount r2 ∧
    GetStatsTotalAmount r1 = GetStatsTotalAmount r2 := by
  subst hb
  have hrec : ∀ r : List CCoins,
      r.map statsRecordStream
        = (r.map fun c => indexedNonNull 0 c.vout).map
            (fun l => (l.map fun p => serVARINT (p.1 + 1) ++ serTxOut p.2).flatten
              ++ serVARINT 0) := by
    intro r
    rw [List.map_map]
    refine List.map_congr_left fun c _ => ?_
    simp [statsRecordStream, statsOutsStream_eq_indexed]
  have hcnt : ∀ r : List CCoins,
      GetStatsOutputCount r
        = ((r.map fun c => indexedNonNull 0 c.vout).map List.length).sum := by
    intro r
    rw [GetStatsOutputCount, List.map_map]
    refine congrArg List.sum (List.map_congr_left fun c _ => ?_)
    simp [statsOutputCount, indexedNonNull_length]
  have hamt : ∀ r : List CCoins,
      GetStatsTotalAmount r
        = ((r.map fun c => indexedNonNull 0 c.vout).map
            (fun l => (l.map fun p => p.2.nValue).sum)).sum := by
    intro r
    rw [GetStatsTotalAmount, List.map_map]
    refine congrArg List.sum (List.map_congr_left fun c _ => ?_)
    simp [statsTotalAmount, indexedNonNull_values]
  refine ⟨?_, ?_, ?_⟩
  · rw [GetStatsStream, GetStatsStream, hrec r1, hrec r2, hc]
  · rw [hcnt r1, hcnt r2, hc]
  · rw [hamt r1, hamt r2, hc]

/-- Witness for C8: the determinism theorem applied at two concrete coin sets
that agree on their indexed non-null outputs (one has a trailing null output,
which is invisible to count, hash and total). -/
theorem c8_witness :
    GetStatsStream 5 [⟨[⟨10, []⟩]⟩] = GetStatsStream 5 [⟨[⟨10, []⟩, ⟨-1, []⟩]⟩] ∧
    GetStatsOutputCount [⟨[⟨10, []⟩]⟩] = GetStatsOutputCount [⟨[⟨10, []⟩, ⟨-1, []⟩]⟩] :=
  ⟨(c8_stats_hash_determinism 5 5 [⟨[⟨10, []⟩]⟩] [⟨[⟨10, []⟩, ⟨-1, []⟩]⟩]
      rfl (by decide)).1,
   (c8_stats_hash_determinism 5 5 [⟨[⟨10, []⟩]⟩] [⟨[⟨10, []⟩, ⟨-1, []⟩]⟩]
      rfl (by decide)).2.1⟩

/-- Counterexample for C8 as stated: two coin sets with the same best-block
hash and the same non-null outputs need not produce the same summary stream —
a null output occupying an earlier position shifts the 1-based index hashed
before the non-null output (`VARINT(i+1)` at txdb.cpp line 247), changing the
stream. -/
theorem c8_counterexample :
    nonNullOuts [⟨[⟨10, []⟩]⟩] = nonNullOuts [⟨[⟨-1, []⟩, ⟨10, []⟩]⟩] ∧
    GetStatsStream 5 [⟨[⟨10, []⟩]⟩] ≠ GetStatsStream 5 [⟨[⟨-1, []⟩, ⟨10, []⟩]⟩] := by
  refine ⟨by decide, by decide⟩

/-! ## Claim C9: block-index load (CBlockTreeDB::LoadBlockIndexGuts,
txdb.cpp lines 662-717)

`CDiskBlockIndex`, `CBlockIndex` and the header-hash computation live in the
missing chain.h/block.h headers.  They are modelled from the spec: a disk
entry carries the identity hash under which it was written (its
`GetBlockHash()`), its predecessor hash, and the header and chain-status
fields; the header identity hash is an opaque deterministic function of the
header fields, and invariant I4 requires the recomputed header hash to equal
the entry's stored identity hash. -/

/-- Modelled from the spec: one decoded on-disk block-index record. -/
structure CDiskBlockIndex where
  storedHash : Nat
  hashPrev : Nat
  nHeight : Int
  nFile : Int
  nDataPos : Nat
  nUndoPos : Nat
  hashSproutAnchor : Nat
  nVersion : Int
  hashMerkleRoot : Nat
  hashFinalSaplingRoot : Nat
  nTime : Nat
  nBits : Nat
  nNonce : Nat
  nSolution : List Nat
  nStatus : Nat
  nCachedBranchId : Option Nat
  nTx : Nat
  nSproutValue : Option Int
deriving DecidableEq

/-- The in-memory block-index node (`CBlockIndex`): the predecessor link is
kept as the predecessor's hash key. -/
structure CBlockIndexNode where
  pprev : Nat
  nHeight : Int
  nFile : Int
  nDataPos : Nat
  nUndoPos : Nat
  hashSproutAnchor : Nat
  nVersion : Int
  hashMerkleRoot : Nat
  hashFinalSaplingRoot : Nat
  nTime : Nat
  nBits : Nat
  nNonce : Nat
  nSolution : List Nat
  nStatus : Nat
  nCachedBranchId : Option Nat
  nTx : Nat
  nSproutValue : Option Int
deriving DecidableEq

/-- A freshly inserted node before its fields are copied (what
`InsertBlockIndex` creates for a hash not seen yet). -/
def emptyBlockIndexNode : CBlockIndexNode :=
  ⟨0, 0, 0, 0, 0, 0, 0, 0, 0, 0, 0, 0, [], 0, none, 0, none⟩

abbrev BlockMap := List (Nat × CBlockIndexNode)

/-- `InsertBlockIndex`: look up the node for a hash, creating it if absent. -/
def insertBlockIndex (h : Nat) (m : BlockMap) : BlockMap :=
  if (m.find? fun p => p.1 = h).isSome then m else (h, emptyBlockIndexNode) :: m

/-- Field assignment on the node registered under a hash. -/
def setBlockIndexNode (h : Nat) (n : CBlockIndexNode) (m : BlockMap) : BlockMap :=
  (h, n) :: m.filter fun p => ¬ p.1 = h

/-- Modelled from the spec: the block header identity hash — an opaque
deterministic (and field-injective) stand-in for the external double-SHA256 /
Equihash header hash, computed from the header fields copied into the node,
with the predecessor link supplying `hashPrevBlock`. -/
def headerHash (nVersion : Int) (hashPrevBlock hashMerkleRoot hashFinalSaplingRoot
    nTime nBits nNonce : Nat) (nSolution : List Nat) : Nat :=
  Nat.pair nVersion.toNat (Nat.pair hashPrevBlock (Nat.pair hashMerkleRoot
    (Nat.pair hashFinalSaplingRoot (Nat.pair nTime (Nat.pair nBits
      (Nat.pair nNonce (deserLE nSolution)))))))

/-- The node built from a disk record (the field-copy block of
`LoadBlockIndexGuts`, txdb.cpp lines 676-693). -/
def nodeOfDiskIndex (d : CDiskBlockIndex) : CBlockIndexNode :=
  { pprev := d.hashPrev
  , nHeight := d.nHeight
  , nFile := d.nFile
  , nDataPos := d.nDataPos
  , nUndoPos := d.nUndoPos
  , hashSproutAnchor := d.hashSproutAnchor
  , nVersion := d.nVersion
  , hashMerkleRoot := d.hashMerkleRoot
  , hashFinalSaplingRoot := d.hashFinalSaplingRoot
  , nTime := d.nTime
  , nBits := d.nBits
  , nNonce := d.nNonce
  , nSolution := d.nSolution
  , nStatus := d.nStatus
  , nCachedBranchId := d.nCachedBranchId
  , nTx := d.nTx
  , nSproutValue := d.nSproutValue }

/-- One raw entry the block-index cursor yields: the decoded `(tag, hash)`
key when `GetKey` succeeds, and the decoded disk record when `GetValue`
succeeds. -/
structure BlockCursorEntry where
  key : Option (Nat × Nat)
  value : Option CDiskBlockIndex

/-- `CBlockTreeDB::LoadBlockIndexGuts` (txdb.cpp lines 662-717) over the
post-seek cursor entries: for each entry with a block-index key, decode the
record, create/link the node and its predecessor, copy the fields, then
recompute the header hash from the copied fields and require it to equal the
node's stored hash key; a `GetValue` failure or a hash mismatch returns
failure immediately.  A `GetKey` failure or a foreign tag ends the load with
success. -/
def LoadBlockIndexGuts : List BlockCursorEntry → BlockMap → Bool × BlockMap
  | [], m => (true, m)
  | e :: rest, m =>
      match e.key with
      | none => (true, m)
      | some (tag, _) =>
          if tag = DB_BLOCK_INDEX then
            match e.value with
            | none => (false, m)
            | some d =>
                let m1 := insertBlockIndex d.storedHash m
                let m2 := insertBlockIndex d.hashPrev m1
                let m3 := setBlockIndexNode d.storedHash (nodeOfDiskIndex d) m2
                if headerHash d.nVersion d.hashPrev d.hashMerkleRoot
                    d.hashFinalSaplingRoot d.nTime d.nBits d.nNonce d.nSolution
                    ≠ d.storedHash then (false, m3)
                else LoadBlockIndexGuts rest m3
          else (true, m)

/-- Claim C9: during block-index load, the first value-decode failure, and
the first entry whose recomputed header hash differs from its stored identity
hash, stop the load immediately with failure — the entries beyond the bad
one are never examined. -/
theorem c9_load_stops_on_corruption (e : BlockCursorEntry) (bh : Nat)
    (hkey : e.key = some (DB_BLOCK_INDEX, bh))
    (hbad : e.value = none ∨
      ∃ d, e.value = some d ∧
        headerHash d.nVersion d.hashPrev d.hashMerkleRoot d.hashFinalSaplingRoot
          d.nTime d.nBits d.nNonce d.nSolution ≠ d.storedHash) :
    (∀ (l1 l2 : List BlockCursorEntry) (m : BlockMap),
        LoadBlockIndexGuts (l1 ++ e :: l2) m = LoadBlockIndexGuts (l1 ++ [e]) m) ∧
    (∀ (l2 : List BlockCursorEntry) (m : BlockMap),
        (LoadBlockIndexGuts (e :: l2) m).1 = false) := by
  have hstep : ∀ (l2 : List BlockCursorEntry) (m : BlockMap),
      LoadBlockIndexGuts (e :: l2) m = LoadBlockIndexGuts [e] m := by
    intro l2 m
    rw [LoadBlockIndexGuts, LoadBlockIndexGuts]
    rcases hbad with hv | ⟨d, hv, hne⟩
    · simp only [hkey, hv]
    · simp only [hkey, hv]
      rw [if_pos hne, if_pos hne]
  constructor
  · intro l1
    induction l1 with
    | nil => intro l2 m; exact hstep l2 m
    | cons q rest ih =>
        intro l2 m
        rw [List.cons_append, List.cons_append, LoadBlockIndexGuts,
          LoadBlockIndexGuts]
        cases hq : q.key with
        | none => rfl
        | some pr =>
            obtain ⟨tag, h'⟩ := pr
            simp only
            by_cases ht : tag = DB_BLOCK_INDEX
            · rw [if_pos ht, if_pos ht]
              cases hqv : q.value with
              | none => rfl
              | some d =>
                  simp only
                  by_cases hh : headerHash d.nVersion d.hashPrev d.hashMerkleRoot
                      d.hashFinalSaplingRoot d.nTime d.nBits d.nNonce d.nSolution
                      ≠ d.storedHash
                  · rw [if_pos hh, if_pos hh]
                  · rw [if_neg hh, if_neg hh, ih]
            · rw [if_neg ht, if_neg ht]
  · intro l2 m
    rcases hbad with hv | ⟨d, hv, hne⟩
    · simp [LoadBlockIndexGuts, hkey, hv]
    · simp [LoadBlockIndexGuts, hkey, hv, hne]

/-- Witness for C9: the theorem applied at a concrete corrupt entry (stored
hash 1 but recomputed header hash 0) followed by one trailing entry that is
never examined. -/
theorem c9_witness :
    LoadBlockIndexGuts
        [⟨some (DB_BLOCK_INDEX, 1),
            some ⟨1, 0, 0, 0, 0, 0, 0, 0, 0, 0, 0, 0, 0, [], 0, none, 0, none⟩⟩,
          ⟨none, none⟩] []
      = LoadBlockIndexGuts
          [⟨some (DB_BLOCK_INDEX, 1),
              some ⟨1, 0, 0, 0, 0, 0, 0, 0, 0, 0, 0, 0, 0, [], 0, none, 0, none⟩⟩] [] ∧
    (LoadBlockIndexGuts
        [⟨some (DB_BLOCK_INDEX, 1),
            some ⟨1, 0, 0, 0, 0, 0, 0, 0, 0, 0, 0, 0, 0, [], 0, none, 0, none⟩⟩,
          ⟨none, none⟩] []).1 = false :=
  ⟨(c9_load_stops_on_corruption
      ⟨some (DB_BLOCK_INDEX, 1),
        some ⟨1, 0, 0, 0, 0, 0, 0, 0, 0, 0, 0, 0, 0, [], 0, none, 0, none⟩⟩ 1
      rfl (Or.inr ⟨_, rfl, by decide⟩)).1 [] [⟨none, none⟩] [],
   (c9_load_stops_on_corruption
      ⟨some (DB_BLOCK_INDEX, 1),
        some ⟨1, 0, 0, 0, 0, 0, 0, 0, 0, 0, 0, 0, 0, [], 0, none, 0, none⟩⟩ 1
      rfl (Or.inr ⟨_, rfl, by decide⟩)).2 [⟨none, none⟩] []⟩

/-! ## Claim C10: the reindex flag (txdb.cpp lines 209-219) -/

/-- `CBlockTreeDB::WriteReindexing`: writing `true` stores the byte `'1'`
under the reindex key; writing `false` erases the key entirely. -/
def WriteReindexing (db : DBState) (fReindexing : Bool) : DBState :=
  if fReindexing then dbWrite db [DB_REINDEX_FLAG] (.charV 49)
  else dbEraseKey db [DB_REINDEX_FLAG]

/-- `CBlockTreeDB::ReadReindexing`: the out-parameter is the key-presence
test and the return value is unconditionally `true`. -/
def ReadReindexing (db : DBState) : Bool × Bool :=
  (true, dbExists db [DB_REINDEX_FLAG])

/-- Claim C10: reading the reindex flag never fails — it returns `true` for
every store state and reports via its out-parameter exactly whether the
reindex key is present; `WriteReindexing false` erases the key rather than
storing a false marker; and after `WriteReindexing b` the flag
`ReadReindexing` reports equals `b`. -/
theorem c10_reindex_flag (db : DBState) (b : Bool) :
    (ReadReindexing db).1 = true ∧
    (ReadReindexing db).2 = dbExists db [DB_REINDEX_FLAG] ∧
    dbExists (WriteReindexing db false) [DB_REINDEX_FLAG] = false ∧
    (ReadReindexing (WriteReindexing db b)).2 = b := by
  refine ⟨rfl, rfl, ?_, ?_⟩
  · simp [WriteReindexing, dbExists, dbRead_dbEraseKey_self]
  · cases b with
    | true =>
        simp [WriteReindexing, ReadReindexing, dbExists, dbRead_dbWrite_self]
    | false =>
        simp [WriteReindexing, ReadReindexing, dbExists, dbRead_dbEraseKey_self]
